import Mathlib

/-!
libambit: capability table, GPS-orbit update and log synchronisation.

A shallow embedding of `src/libambit/libambit.c`.  Machine integers are
natural numbers reduced modulo the width of the C type, C strings are
`String`s (a `char *` that may be `NULL` is an `Option String`), and the
calls that leave the file (the protocol layer, the PMEM20 layer and the
caller's callbacks) are parameters of the embedding.
-/

namespace Libambit

/-! ## Capability table -/

/-- The C macro `SUUNTO_USB_VENDOR_ID`. -/
def SUUNTO_USB_VENDOR_ID : Nat := 0x1493

/-- A four byte version, `uint8_t version[4]`; `b0` is `version[0]`. -/
structure version_t where
  b0 : Nat
  b1 : Nat
  b2 : Nat
  b3 : Nat
deriving DecidableEq, Repr

/-- Every component of the version is a `uint8_t`. -/
def version_t.wf (v : version_t) : Prop :=
  v.b0 < 256 ∧ v.b1 < 256 ∧ v.b2 < 256 ∧ v.b3 < 256

instance (v : version_t) : Decidable v.wf := by
  unfold version_t.wf; infer_instance

/-- The C struct `ambit_known_device_s`; `model` and `name` are `char *`
and are `NULL` in the terminating record. -/
structure ambit_known_device_t where
  vid : Nat
  pid : Nat
  model : Option String
  min_sw_version : version_t
  name : Option String
  supported : Bool
  pmem20_chunksize : Nat
deriving DecidableEq, Repr

/-- The static table `known_devices`, terminating record included (its
omitted last initialiser is zero). -/
def known_devices : List ambit_known_device_t :=
  [ ⟨SUUNTO_USB_VENDOR_ID, 0x001c, some "Finch", ⟨0x00, 0x00, 0x00, 0x00⟩, some "Suunto Ambit3 Sport", false, 0x0400⟩,
    ⟨SUUNTO_USB_VENDOR_ID, 0x001b, some "Emu", ⟨0x00, 0x00, 0x00, 0x00⟩, some "Suunto Ambit3 Peak", false, 0x0400⟩,
    ⟨SUUNTO_USB_VENDOR_ID, 0x001d, some "Greentit", ⟨0x00, 0x00, 0x00, 0x00⟩, some "Suunto Ambit2 R", true, 0x0400⟩,
    ⟨SUUNTO_USB_VENDOR_ID, 0x001a, some "Colibri", ⟨0x01, 0x01, 0x02, 0x00⟩, some "Suunto Ambit2 S", true, 0x0400⟩,
    ⟨SUUNTO_USB_VENDOR_ID, 0x0019, some "Duck", ⟨0x01, 0x01, 0x02, 0x00⟩, some "Suunto Ambit2", true, 0x0400⟩,
    ⟨SUUNTO_USB_VENDOR_ID, 0x001a, some "Colibri", ⟨0x00, 0x02, 0x03, 0x00⟩, some "Suunto Ambit2 S", false, 0x0400⟩,
    ⟨SUUNTO_USB_VENDOR_ID, 0x0019, some "Duck", ⟨0x00, 0x02, 0x03, 0x00⟩, some "Suunto Ambit2", false, 0x0400⟩,
    ⟨SUUNTO_USB_VENDOR_ID, 0x001a, some "Colibri", ⟨0x00, 0x02, 0x02, 0x00⟩, some "Suunto Ambit2 S (up to 0.2.2)", false, 0x0200⟩,
    ⟨SUUNTO_USB_VENDOR_ID, 0x0019, some "Duck", ⟨0x00, 0x02, 0x02, 0x00⟩, some "Suunto Ambit2 (up to 0.2.2)", false, 0x0200⟩,
    ⟨SUUNTO_USB_VENDOR_ID, 0x0010, some "Bluebird", ⟨0x02, 0x01, 0x00, 0x00⟩, some "Suunto Ambit", true, 0x0200⟩,
    ⟨SUUNTO_USB_VENDOR_ID, 0x0010, some "Bluebird", ⟨0x01, 0x09, 0x00, 0x00⟩, some "Suunto Ambit", false, 0x0200⟩,
    ⟨SUUNTO_USB_VENDOR_ID, 0x0010, some "Bluebird", ⟨0x01, 0x06, 0x00, 0x00⟩, some "Suunto Ambit", false, 0⟩,
    ⟨SUUNTO_USB_VENDOR_ID, 0x0010, some "Bluebird", ⟨0x01, 0x01, 0x00, 0x00⟩, some "Suunto Ambit", false, 0⟩,
    ⟨SUUNTO_USB_VENDOR_ID, 0x0010, some "Bluebird", ⟨0x00, 0x00, 0x00, 0x00⟩, some "Suunto Ambit", false, 0⟩,
    ⟨0x0000, 0x0000, none, ⟨0x00, 0x00, 0x00, 0x00⟩, none, false, 0⟩ ]

/-- The C expression `sizeof(known_devices) / sizeof(*known_devices)`. -/
def known_devices_count : Nat := known_devices.length

/-- The fields of `ambit_device_info_t` that this file reads or writes
(`path` and `next` are pointers the embedding does not need). -/
structure ambit_device_info_t where
  name : String
  model : String
  serial : String
  vendor_id : Nat
  product_id : Nat
  fw_version : version_t
  hw_version : version_t
  access_status : Int
  is_supported : Bool
  chunk_size : Nat
deriving DecidableEq, Repr

/-- The C function `version_number`: the four bytes shifted and or-ed
into a `uint32_t`. -/
def version_number (version : version_t) : Nat :=
  ((version.b0 <<< 24) ||| (version.b1 <<< 16) ||| (version.b2 <<< 0) ||| (version.b3 <<< 8))
    % 2 ^ 32

/-- The third component printed by `version_string`:
`(version[2] << 0) | (version[3] << 8)`. -/
def patch16 (version : version_t) : Nat :=
  (version.b2 <<< 0) ||| (version.b3 <<< 8)

/-- Lexicographic `≤` on `(version[0], version[1], patch16)`. -/
def version_lex_le (a b : version_t) : Prop :=
  a.b0 < b.b0 ∨ (a.b0 = b.b0 ∧ (a.b1 < b.b1 ∨ (a.b1 = b.b1 ∧ patch16 a ≤ patch16 b)))

instance (a b : version_t) : Decidable (version_lex_le a b) := by
  unfold version_lex_le; infer_instance

/-- The loop of `is_known_vid_pid`:
`for (i = 0; !found && i < count; ++i) found = ...`.  The table has
`count` records, so `count` rounds of fuel run the loop to its end. -/
def is_known_vid_pid_loop (vid pid : Nat) : Nat → Bool → Nat → Bool
  | 0, found, _ => found
  | fuel + 1, found, i =>
    if !found then
      if h : i < known_devices.length then
        is_known_vid_pid_loop vid pid fuel
          (decide ((known_devices.get ⟨i, h⟩).vid = vid) && decide ((known_devices.get ⟨i, h⟩).pid = pid))
          (i + 1)
      else found
    else found

/-- The C function `is_known_vid_pid`. -/
def is_known_vid_pid (vid pid : Nat) : Bool :=
  is_known_vid_pid_loop vid pid known_devices_count false 0

/-- The C call `0 == strcmp(a, b)` with `a` from the table: `none` when
`a` is `NULL`, which `strcmp` dereferences. -/
def strcmp_eq (a : Option String) (b : String) : Option Bool :=
  match a with
  | none => none
  | some s => some (decide (s = b))

/-- The condition assigned to `found` in `find_known_device`, with the
short-circuit of `&&`: `strcmp` is reached only after the ids matched. -/
def find_known_device_test (d : ambit_known_device_t) (info : ambit_device_info_t) : Option Bool :=
  if d.vid = info.vendor_id then
    if d.pid = info.product_id then
      match strcmp_eq d.name info.name with
      | none => none
      | some false => some false
      | some true =>
        match strcmp_eq d.model info.model with
        | none => none
        | some false => some false
        | some true =>
          some (decide (version_number d.min_sw_version ≤ version_number info.fw_version))
    else some false
  else some false

/-- The loop of `find_known_device`; it yields the final `(found, i)`,
or `none` when a `NULL` string reached `strcmp`. -/
def find_known_device_loop (info : ambit_device_info_t) : Nat → Bool → Nat → Option (Bool × Nat)
  | 0, found, i => some (found, i)
  | fuel + 1, found, i =>
    if !found then
      if h : i < known_devices.length then
        match find_known_device_test (known_devices.get ⟨i, h⟩) info with
        | some f => find_known_device_loop info fuel f (i + 1)
        | none => none
      else some (found, i)
    else some (found, i)

/-- The C function `find_known_device`: `-1` for a `NULL` descriptor,
otherwise `i < count ? i : -1` for the `i` the loop ends with. -/
def find_known_device (info : Option ambit_device_info_t) : Option Int :=
  match info with
  | none => some (-1)
  | some d =>
    match find_known_device_loop d known_devices_count false 0 with
    | none => none
    | some (_, i) => some (if i < known_devices_count then (i : Int) else -1)

/-- The descriptor of an Ambit with firmware 2.1.0 as identification
fills it in before the table lookup. -/
def ambit_2_1_0 : ambit_device_info_t :=
  { name := "Suunto Ambit", model := "Bluebird", serial := "",
    vendor_id := 0x1493, product_id := 0x0010,
    fw_version := ⟨0x02, 0x01, 0x00, 0x00⟩, hw_version := ⟨0, 0, 0, 0⟩,
    access_status := 0, is_supported := false, chunk_size := 0 }

/-! ## Calls that leave the file -/

/-- The command codes of `libambit_int.h` that this file sends. -/
inductive ambit_command where
  | date | time | status | personal_settings | gps_orbit_head | write_start
  | log_count | log_head_first | log_head_step | log_head | log_head_peek
  | device_info | lock_check | lock_set
deriving DecidableEq, Repr

/-- One observable action of a run.  `H` is `ambit_log_header_t` and `E`
is `ambit_log_entry_t`, both declared outside the file. -/
inductive Event (H E : Type) where
  /-- A call of `libambit_protocol_command`: code, request payload, returned
  status and reply buffer. -/
  | command (cmd : ambit_command) (send : List Nat) (status : Int) (reply : List Nat)
  /-- A call of `skip_cb` and what it returned. -/
  | skip_cb (header : H) (ret : Int)
  /-- A call of `push_cb`. -/
  | push_cb (entry : E)
  /-- A call of `progress_cb` with `(log_count, log_current, progress_percent)`. -/
  | progress_cb (total walked percent : Nat)
  /-- A call of `libambit_pmem20_log_init`. -/
  | pmem20_log_init (ret : Int)
  /-- A call of `libambit_pmem20_log_next_header`. -/
  | pmem20_log_next_header (ret : Int) (header : H)
  /-- A call of `libambit_pmem20_log_read_entry`; `none` is the `NULL` result. -/
  | pmem20_log_read_entry (entry : Option E)
  /-- A call of `libambit_pmem20_gps_orbit_write`. -/
  | pmem20_gps_orbit_write (data : List Nat) (ret : Int)
deriving DecidableEq, Repr

/-- The actions of a run in the order they happened. -/
abbrev Trace (H E : Type) := List (Event H E)

/-- The device and the layers below this file.  Each answer may depend on
everything that happened before in the run.  The last argument of
`libambit_protocol_command` (the framing variant) is fixed by the command
code and is left out. -/
structure Env (H E : Type) where
  /-- Returned status (0 is success) and reply buffer. -/
  libambit_protocol_command : Trace H E → ambit_command → List Nat → Int × List Nat
  /-- The decoder: `some h` when it returns 0 with `h` stored. -/
  libambit_pmem20_log_parse_header : List Nat → Option H
  libambit_pmem20_log_init : Trace H E → Int
  libambit_pmem20_log_next_header : Trace H E → Int × H
  libambit_pmem20_log_read_entry : Trace H E → Option E
  libambit_pmem20_gps_orbit_write : Trace H E → List Nat → Int

/-- How an embedded function ends. -/
inductive Outcome (α : Type) where
  /-- It returned. -/
  | ret (a : α)
  /-- It read past the end of a buffer. -/
  | out_of_bounds
  /-- A loop was cut off by the fuel. -/
  | out_of_fuel
deriving DecidableEq, Repr

/-- How one round of the header scan of `libambit_log_read` ends. -/
inductive BodyExit where
  /-- A `return` inside the round. -/
  | returned (v : Int)
  /-- The `break` after a header that is not skipped. -/
  | broke
  /-- The end of the round, with the new value of `more`. -/
  | next (more : Nat)
deriving DecidableEq, Repr

/-- How the header scan of `libambit_log_read` leaves its loop. -/
inductive LoopExit where
  /-- A `return` inside the loop. -/
  | returned (v : Int)
  /-- The loop ended (condition false or `break`) with this `read_pmem`. -/
  | fell_through (read_pmem : Bool)
deriving DecidableEq, Repr

section Calls

variable {H E : Type}

/-- The action recorded for the call of `libambit_protocol_command` made
after the actions `t`. -/
def logged (env : Env H E) (t : Trace H E) (cmd : ambit_command) (send : List Nat) : Event H E :=
  Event.command cmd send (env.libambit_protocol_command t cmd send).1
    (env.libambit_protocol_command t cmd send).2

/-- The C expression `le16toh(*(uint16_t*)(reply_data + off))`. -/
def le16toh_at (reply_data : List Nat) (off : Nat) : Option Nat :=
  match reply_data.get? off, reply_data.get? (off + 1) with
  | some lo, some hi => some ((lo % 256 + 256 * (hi % 256)) % 2 ^ 16)
  | _, _ => none

/-- The C expression `le32toh(*(uint32_t*)reply_data)`. -/
def le32toh_at (reply_data : List Nat) : Option Nat :=
  match reply_data.get? 0, reply_data.get? 1, reply_data.get? 2, reply_data.get? 3 with
  | some a, some b, some c, some d =>
    some ((a % 256 + 256 * (b % 256) + 65536 * (c % 256) + 16777216 * (d % 256)) % 2 ^ 32)
  | _, _, _, _ => none

/-! ## Reading a trace -/

/-- A call of `libambit_protocol_command`. -/
def Event.is_command : Event H E → Bool
  | .command _ _ _ _ => true
  | _ => false

/-- A call of `libambit_protocol_command` with the code `c`. -/
def Event.is_cmd (c : ambit_command) : Event H E → Bool
  | .command cmd _ _ _ => decide (cmd = c)
  | _ => false

/-- A call of `skip_cb`. -/
def Event.is_skip : Event H E → Bool
  | .skip_cb _ _ => true
  | _ => false

/-- A call of `skip_cb` that answered "do not skip" (non-zero). -/
def Event.is_new : Event H E → Bool
  | .skip_cb _ ret => decide (ret ≠ 0)
  | _ => false

/-- A call of `push_cb`. -/
def Event.is_push : Event H E → Bool
  | .push_cb _ => true
  | _ => false

/-- A call of `progress_cb`. -/
def Event.is_progress : Event H E → Bool
  | .progress_cb _ _ _ => true
  | _ => false

/-- A call of `libambit_pmem20_log_init`. -/
def Event.is_log_init : Event H E → Bool
  | .pmem20_log_init _ => true
  | _ => false

/-- A call of `libambit_pmem20_log_next_header`. -/
def Event.is_next_header : Event H E → Bool
  | .pmem20_log_next_header _ _ => true
  | _ => false

/-- A call of `libambit_pmem20_log_next_header` that returned 1: an entry
is walked. -/
def Event.is_walk : Event H E → Bool
  | .pmem20_log_next_header ret _ => decide (ret = 1)
  | _ => false

/-- A call of `libambit_pmem20_log_read_entry`. -/
def Event.is_read : Event H E → Bool
  | .pmem20_log_read_entry _ => true
  | _ => false

/-- A call of `libambit_pmem20_log_read_entry` that returned an entry. -/
def Event.is_read_ok : Event H E → Bool
  | .pmem20_log_read_entry (some _) => true
  | _ => false

/-- A call of `libambit_pmem20_log_read_entry` that returned `NULL`. -/
def Event.is_read_failed : Event H E → Bool
  | .pmem20_log_read_entry none => true
  | _ => false

/-- A call of `libambit_pmem20_gps_orbit_write`. -/
def Event.is_gps_orbit_write : Event H E → Bool
  | .pmem20_gps_orbit_write _ _ => true
  | _ => false

/-- The continuation markers seen so far: the replies to the header rewind
and to the header peeks. -/
def markers_seen (t : Trace H E) : Nat :=
  t.countP (fun e => e.is_cmd .log_head_first || e.is_cmd .log_head_peek)

/-- The calls of `skip_cb` so far. -/
def skips_seen (t : Trace H E) : Nat :=
  t.countP Event.is_skip

/-! ## GPS orbit data -/

/-- The C function `libambit_gps_orbit_header_read`, called after the
actions `t`: `some data` with the eight bytes after the first when it
returns 0, `none` when it returns -1; and the action it adds. -/
def libambit_gps_orbit_header_read (env : Env H E) (t : Trace H E) :
    Option (List Nat) × Trace H E :=
  if (env.libambit_protocol_command t .gps_orbit_head []).1 = 0
      ∧ 9 ≤ (env.libambit_protocol_command t .gps_orbit_head []).2.length then
    (some (((env.libambit_protocol_command t .gps_orbit_head []).2.drop 1).take 8),
      [logged env t .gps_orbit_head []])
  else
    (none, [logged env t .gps_orbit_head []])

/-- The array `cmpheader` of `libambit_gps_orbit_write`; `none` when the
payload has no byte 13. -/
def cmpheader (data : List Nat) : Option (List Nat) :=
  match data.get? 7, data.get? 6, data.get? 8, data.get? 9,
        data.get? 13, data.get? 12, data.get? 11, data.get? 10 with
  | some a, some b, some c, some d, some e, some f, some g, some h => some [a, b, c, d, e, f, g, h]
  | _, _, _, _, _, _, _, _ => none

/-- The C function `libambit_gps_orbit_write`: the returned value and the
actions of the run. -/
def libambit_gps_orbit_write (env : Env H E) (data : List Nat) : Outcome (Int × Trace H E) :=
  -- the status of the "write start" command is not looked at
  let t0 : Trace H E := [logged env [] .write_start []]
  match (libambit_gps_orbit_header_read env t0).1 with
  | some header =>
    let t1 := t0 ++ (libambit_gps_orbit_header_read env t0).2
    match cmpheader data with
    | none => .out_of_bounds
    | some cmp =>
      -- check if new data differs
      if header ≠ cmp then
        .ret (env.libambit_pmem20_gps_orbit_write t1 data,
              t1 ++ [Event.pmem20_gps_orbit_write data (env.libambit_pmem20_gps_orbit_write t1 data)])
      else
        .ret (0, t1)
  | none => .ret (-1, t0 ++ (libambit_gps_orbit_header_read env t0).2)

/-! ## Log synchronisation -/

/-- One round of the header scan of `libambit_log_read`, entered after the
actions `t`: how the round ends and the actions it adds. -/
def log_read_prescan_body (env : Env H E) (skip_cb : Trace H E → H → Int) (t : Trace H E) :
    Outcome (BodyExit × Trace H E) :=
  -- go to next entry
  let p1 : Trace H E := [logged env t .log_head_step []]
  if (env.libambit_protocol_command t .log_head_step []).1 ≠ 0 then
    .ret (.returned (-1), p1)
  else
    -- first part of the header
    let p2 : Trace H E := p1 ++ [logged env (t ++ p1) .log_head []]
    if (env.libambit_protocol_command (t ++ p1) .log_head []).1 ≠ 0 then
      .ret (.returned (-1), p2)
    else
      -- second part of the header
      let reply_data := (env.libambit_protocol_command (t ++ p2) .log_head []).2
      let p3 : Trace H E := p2 ++ [logged env (t ++ p2) .log_head []]
      if (env.libambit_protocol_command (t ++ p2) .log_head []).1 = 0 then
        if 8 < reply_data.length then
          match env.libambit_pmem20_log_parse_header (reply_data.drop 8) with
          | some log_header =>
            let p4 : Trace H E := p3 ++ [Event.skip_cb log_header (skip_cb (t ++ p3) log_header)]
            if skip_cb (t ++ p3) log_header ≠ 0 then
              -- header was not skipped, break out
              .ret (.broke, p4)
            else
              -- is there more entries to read?
              if (env.libambit_protocol_command (t ++ p4) .log_head_peek []).1 ≠ 0 then
                .ret (.returned (-1), p4 ++ [logged env (t ++ p4) .log_head_peek []])
              else
                match le32toh_at (env.libambit_protocol_command (t ++ p4) .log_head_peek []).2 with
                | none => .out_of_bounds
                | some more => .ret (.next more, p4 ++ [logged env (t ++ p4) .log_head_peek []])
          | none => .ret (.returned (-1), p3)
        else .ret (.returned (-1), p3)
      else
        .ret (.returned (-1), p3)

/-- The header scan of `libambit_log_read`: `while (more == 0x00000400)`. -/
def log_read_prescan_loop (env : Env H E) (skip_cb : Trace H E → H → Int) :
    Nat → Nat → Trace H E → Outcome (LoopExit × Trace H E)
  | 0, _, _ => .out_of_fuel
  | fuel + 1, more, t =>
    if more = 0x00000400 then
      match log_read_prescan_body env skip_cb t with
      | .ret (.returned v, p) => .ret (.returned v, t ++ p)
      | .ret (.broke, p) => .ret (.fell_through true, t ++ p)
      | .ret (.next more', p) => log_read_prescan_loop env skip_cb fuel more' (t ++ p)
      | .out_of_bounds => .out_of_bounds
      | .out_of_fuel => .out_of_fuel
    else .ret (.fell_through false, t)

/-- The part of `libambit_log_read` between the count query and
`if (read_pmem)`, entered after the actions `t`. -/
def log_read_prescan (env : Env H E) (skip_cb : Option (Trace H E → H → Int)) (fuel : Nat)
    (t : Trace H E) : Outcome (LoopExit × Trace H E) :=
  match skip_cb with
  | some skip =>
    -- rewind
    if (env.libambit_protocol_command t .log_head_first []).1 ≠ 0 then
      .ret (.returned (-1), t ++ [logged env t .log_head_first []])
    else
      match le32toh_at (env.libambit_protocol_command t .log_head_first []).2 with
      | none => .out_of_bounds
      | some more =>
        log_read_prescan_loop env skip fuel more (t ++ [logged env t .log_head_first []])
  | none => .ret (.fell_through true, t)

/-- The optional call `if (progress_cb != NULL) progress_cb(...)`. -/
def report_progress (progress_cb : Bool) (total walked percent : Nat) : Trace H E :=
  if progress_cb then [Event.progress_cb total walked percent] else []

/-- One round of the bulk loop of `libambit_log_read`, after the loop
condition: from the first `progress_cb` call to the second.  `t1` is the
trace so far; the result is the new `entries_read` and the actions of the
round. -/
def log_read_bulk_body (env : Env H E) (skip_cb : Option (Trace H E → H → Int))
    (push_cb progress_cb : Bool) (log_entries_total log_entries_walked : Nat)
    (entries_read : Int) (log_header : H) (t1 : Trace H E) : Int × Trace H E :=
  let e2 : Trace H E := report_progress progress_cb log_entries_total (log_entries_walked + 1)
    (100 * log_entries_walked / log_entries_total)
  -- check if this entry needs to be read
  let e3 : Trace H E := match skip_cb with
    | none => []
    | some skip => [Event.skip_cb log_header (skip (t1 ++ e2) log_header)]
  let wanted : Bool := match skip_cb with
    | none => true
    | some skip => decide (skip (t1 ++ e2) log_header ≠ 0)
  let log_entry := env.libambit_pmem20_log_read_entry (t1 ++ e2 ++ e3)
  let e4 : Trace H E := if wanted then [Event.pmem20_log_read_entry log_entry] else []
  let e5 : Trace H E := if wanted then
      match log_entry with
      | some entry => if push_cb then [Event.push_cb entry] else []
      | none => []
    else []
  let entries_read' : Int := if wanted then
      match log_entry with
      | some _ => entries_read + 1
      | none => entries_read
    else entries_read
  let walked' := (log_entries_walked + 1) % 2 ^ 16
  (entries_read', e2 ++ e3 ++ e4 ++ e5 ++
    report_progress progress_cb log_entries_total walked' (100 * walked' / log_entries_total))

/-- The bulk loop of `libambit_log_read`:
`while (log_entries_walked < log_entries_total && next_header(...) == 1)`.
It yields `entries_read` and the trace. -/
def log_read_bulk_loop (env : Env H E) (skip_cb : Option (Trace H E → H → Int))
    (push_cb progress_cb : Bool) (log_entries_total : Nat) :
    Nat → Nat → Int → Trace H E → Outcome (Int × Trace H E)
  | 0, _, _, _ => .out_of_fuel
  | fuel + 1, log_entries_walked, entries_read, t =>
    if log_entries_walked < log_entries_total then
      let ret := (env.libambit_pmem20_log_next_header t).1
      let log_header := (env.libambit_pmem20_log_next_header t).2
      let t1 := t ++ [Event.pmem20_log_next_header ret log_header]
      if ret = 1 then
        let body := log_read_bulk_body env skip_cb push_cb progress_cb log_entries_total
          log_entries_walked entries_read log_header t1
        log_read_bulk_loop env skip_cb push_cb progress_cb log_entries_total fuel
          ((log_entries_walked + 1) % 2 ^ 16) body.1 (t1 ++ body.2)
      else
        .ret (entries_read, t1)
    else .ret (entries_read, t)

/-- The C function `libambit_log_read`; a callback argument that is `NULL`
is `none` (`skip_cb`) or `false` (`push_cb`, `progress_cb`).  It yields the
returned value and the actions of the run. -/
def libambit_log_read (env : Env H E) (skip_cb : Option (Trace H E → H → Int))
    (push_cb progress_cb : Bool) (fuel : Nat) : Outcome (Int × Trace H E) :=
  let t0 : Trace H E := [logged env [] .log_count []]
  if (env.libambit_protocol_command [] .log_count []).1 ≠ 0 then
    .ret (-1, t0)
  else
    match le16toh_at (env.libambit_protocol_command [] .log_count []).2 2 with
    | none => .out_of_bounds
    | some log_entries_total =>
      match log_read_prescan env skip_cb fuel t0 with
      | .out_of_fuel => .out_of_fuel
      | .out_of_bounds => .out_of_bounds
      | .ret (.returned v, t) => .ret (v, t)
      | .ret (.fell_through false, t) => .ret (0, t)
      | .ret (.fell_through true, t) =>
        if env.libambit_pmem20_log_init t ≠ 0 then
          .ret (-1, t ++ [Event.pmem20_log_init (env.libambit_pmem20_log_init t)])
        else
          log_read_bulk_loop env skip_cb push_cb progress_cb log_entries_total fuel 0 0
            (t ++ [Event.pmem20_log_init (env.libambit_pmem20_log_init t)])

/-- Every call of `libambit_pmem20_log_read_entry` in the trace comes
right after a call of `skip_cb` that answered "do not skip"; `prev` is
the action before the trace. -/
def reads_follow_new : Option (Event H E) → Trace H E → Bool
  | _, [] => true
  | prev, e :: rest =>
    (!e.is_read || (match prev with
      | some p => p.is_new
      | none => false)) && reads_follow_new (some e) rest

/-- What the actions `b` of the bulk loop, entered with `walked` entries
already walked, always satisfy. -/
structure BulkFacts (skip_cb : Option (Trace H E → H → Int)) (push_cb progress_cb : Bool)
    (total walked : Nat) (b : Trace H E) : Prop where
  /-- No more than `total` entries are walked. -/
  walked_le : walked + b.countP Event.is_walk ≤ total
  /-- The loop ends only when `total` entries are walked or `next_header` did not return 1. -/
  stop : walked + b.countP Event.is_walk = total ∨
    ∃ r h, r ≠ 1 ∧ b.getLast? = some (Event.pmem20_log_next_header r h)
  /-- The predicate is asked once per walked entry. -/
  skips : b.countP Event.is_skip = if skip_cb.isSome then b.countP Event.is_walk else 0
  /-- An entry is read for each "new" answer, or for each walked entry without predicate. -/
  reads : b.countP Event.is_read = if skip_cb.isSome then b.countP Event.is_new else b.countP Event.is_walk
  /-- Each entry that was read is pushed, when there is a consumer. -/
  pushes : b.countP Event.is_push = if push_cb then b.countP Event.is_read_ok else 0
  /-- Progress is reported twice per walked entry, when there is an observer. -/
  progress : b.countP Event.is_progress = if progress_cb then 2 * b.countP Event.is_walk else 0
  /-- The loop sends no command itself and does not call `log_init` or the orbit write. -/
  quiet : ∀ e ∈ b, e.is_command = false ∧ e.is_log_init = false ∧ e.is_gps_orbit_write = false
  /-- With a predicate, an entry is read only right after the answer "new". -/
  only_new : skip_cb.isSome = true → ∀ prev, reads_follow_new prev b = true

end Calls

/-! ## Identification: the table lookup -/

/-- The lookup of `ambit_device_info_new`:
`index = find_known_device(device); if (0 <= index) { ... }`; `none` when
the lookup dereferenced a `NULL` string. -/
def ambit_device_info_new_lookup (device : ambit_device_info_t) : Option ambit_device_info_t :=
  match find_known_device (some device) with
  | none => none
  | some index =>
    if 0 ≤ index then
      match known_devices.get? index.toNat with
      | some d => some { device with is_supported := d.supported, chunk_size := d.pmem20_chunksize }
      | none => none
    else some device

/-! ## Device information and display lock -/

section DeviceInfo

variable {H E : Type}

/-- The static array `komposti_version`, sent with the device-info command. -/
def komposti_version : List Nat := [0x01, 0x08, 0x01, 0x00]

/-- The C call `memcpy(dst, &reply_data[off], len)`: the bytes copied, or
`none` when they do not all lie inside the reply buffer. -/
def memcpy_from (reply_data : List Nat) (off len : Nat) : Option (List Nat) :=
  if off + len ≤ reply_data.length then some ((reply_data.drop off).take len) else none

/-- A `char` buffer followed by a NUL, read as a C string: the bytes before
the first NUL. -/
def c_string (bytes : List Nat) : String :=
  String.mk ((bytes.takeWhile (fun b => b % 256 ≠ 0)).map (fun b => Char.ofNat (b % 256)))

/-- Four copied bytes as a `uint8_t[4]`. -/
def version_of_bytes (bytes : List Nat) : version_t :=
  ⟨bytes.getD 0 0 % 256, bytes.getD 1 0 % 256, bytes.getD 2 0 % 256, bytes.getD 3 0 % 256⟩

/-- The C function `device_info_get`, called after the actions `t`: the
returned value, the descriptor behind `info` afterwards, and the action it
adds.  `replylen` is not looked at. -/
def device_info_get (env : Env H E) (t : Trace H E) (info : Option ambit_device_info_t) :
    Outcome (Int × Option ambit_device_info_t × Trace H E) :=
  if (env.libambit_protocol_command t .device_info komposti_version).1 = 0 then
    match info with
    | some d =>
      match memcpy_from (env.libambit_protocol_command t .device_info komposti_version).2 0 16,
            memcpy_from (env.libambit_protocol_command t .device_info komposti_version).2 16 16,
            memcpy_from (env.libambit_protocol_command t .device_info komposti_version).2 32 4,
            memcpy_from (env.libambit_protocol_command t .device_info komposti_version).2 36 4 with
      | some model, some serial, some fw_version, some hw_version =>
        .ret (0, some { d with model := c_string model, serial := c_string serial,
                               fw_version := version_of_bytes fw_version,
                               hw_version := version_of_bytes hw_version },
              [logged env t .device_info komposti_version])
      | _, _, _, _ => .out_of_bounds
    | none => .ret (0, none, [logged env t .device_info komposti_version])
  else
    .ret (-1, info, [logged env t .device_info komposti_version])

/-- The C function `lock_log`, called after the actions `t`: the returned
value and the actions it adds. -/
def lock_log (env : Env H E) (t : Trace H E) (lock : Bool) : Outcome (Int × Trace H E) :=
  let ret := (env.libambit_protocol_command t .lock_check []).1
  let e1 : Trace H E := [logged env t .lock_check []]
  -- `current_lock` keeps 0xffffffff when the check failed
  match (if ret = 0 then le32toh_at (env.libambit_protocol_command t .lock_check []).2
         else some 0xffffffff) with
  | none => .out_of_bounds
  | some current_lock =>
    if lock = true ∧ current_lock = 0 then
      .ret ((env.libambit_protocol_command (t ++ e1) .lock_set [1, 0x00, 0x00, 0x00]).1,
            e1 ++ [logged env (t ++ e1) .lock_set [1, 0x00, 0x00, 0x00]])
    else if lock = false ∧ current_lock = 1 then
      .ret ((env.libambit_protocol_command (t ++ e1) .lock_set [0, 0x00, 0x00, 0x00]).1,
            e1 ++ [logged env (t ++ e1) .lock_set [0, 0x00, 0x00, 0x00]])
    else
      .ret (ret, e1)

end DeviceInfo

/-! ## Enumeration -/

/-- The properties of the `hid` parent of a candidate that identification reads. -/
structure hid_parent_t where
  HID_ID : Option String
  HID_NAME : Option String
  HID_UNIQ : Option String

/-- What identification reads from a `struct udev_device`. -/
structure udev_device where
  /-- The result of `udev_device_get_subsystem`. -/
  subsystem : Option String
  /-- The result of `udev_device_get_parent_with_subsystem_devtype(dev, "hid", NULL)`. -/
  hid_parent : Option hid_parent_t
  /-- The result of `udev_device_get_devnode`. -/
  devnode : Option String

/-- The operating system as identification and enumeration meet it. -/
structure Host (H E : Type) where
  /-- Whether `udev_new` returns a context. -/
  udev_new : Bool
  /-- Whether `udev_enumerate_new` returns an enumeration context. -/
  udev_enumerate_new : Bool
  /-- The `hidraw` entries the scan lists, each as
  `udev_device_new_from_syspath` returns it (`none` is `NULL`). -/
  scan : List (Option udev_device)
  /-- The call `sscanf(id, "%hx:%hx:%hx", &bus, &vid, &pid)`: the three
  values when it returns 3. -/
  sscanf_hid_id : String → Option (Nat × Nat × Nat)
  /-- The call `hid_open_path`: the device behind the path when it opens. -/
  hid_open_path : String → Option (Env H E)
  /-- The call `open(path, O_RDWR)`: `errno` when it returns -1. -/
  open_errno : String → Option Int
  /-- The constant `LIBAMBIT_PRODUCT_NAME_LENGTH` of `libambit.h`. -/
  LIBAMBIT_PRODUCT_NAME_LENGTH : Nat
  /-- The constant `LIBAMBIT_SERIAL_LENGTH` of `libambit.h`. -/
  LIBAMBIT_SERIAL_LENGTH : Nat

section Enumeration

variable {H E : Type}

/-- The C function `is_hidraw`. -/
def is_hidraw (dev : Option udev_device) : Bool :=
  match dev with
  | none => false
  | some d =>
    match d.subsystem with
    | none => false
    | some s => decide ("hidraw" = s)

/-- The C call `strncpy(dst, src, n)` into a zeroed buffer of `n + 1` chars,
read back as a C string. -/
def strncpy (src : String) (n : Nat) : String :=
  String.mk (src.data.take n)

/-- The C function `ambit_device_info_new`: `none` is the `NULL` result.
Memory allocation is taken to succeed.  `Outcome.out_of_bounds` stands for
an invalid read inside `device_info_get` or `find_known_device`. -/
def ambit_device_info_new (host : Host H E) (dev : Option udev_device) :
    Outcome (Option ambit_device_info_t) :=
  if is_hidraw dev = false then .ret none
  else
    match dev with
    | none => .ret none
    | some d =>
      match d.hid_parent with
      | none => .ret none
      | some ancestor =>
        match d.devnode with
        | none => .ret none
        | some dev_path =>
          match ancestor.HID_ID with
          | none => .ret none
          | some id =>
            match host.sscanf_hid_id id with
            | none => .ret none
            | some (_, vid, pid) =>
              if is_known_vid_pid vid pid = false then .ret none
              else
                -- the descriptor after `calloc` and the copies from udev
                let device : ambit_device_info_t :=
                  { name := match ancestor.HID_NAME with
                      | some name => strncpy name host.LIBAMBIT_PRODUCT_NAME_LENGTH
                      | none => "",
                    model := "",
                    serial := match ancestor.HID_UNIQ with
                      | some uniq => strncpy uniq host.LIBAMBIT_SERIAL_LENGTH
                      | none => "",
                    vendor_id := vid, product_id := pid,
                    fw_version := ⟨0, 0, 0, 0⟩, hw_version := ⟨0, 0, 0, 0⟩,
                    access_status := 0, is_supported := false, chunk_size := 0 }
                match host.hid_open_path dev_path with
                | some hid =>
                  match device_info_get hid [] (some device) with
                  | .ret (0, some device', _) =>
                    match ambit_device_info_new_lookup device' with
                    | some device'' => .ret (some device'')
                    | none => .out_of_bounds
                  | .ret (_, _, _) => .ret (some device)
                  | .out_of_bounds => .out_of_bounds
                  | .out_of_fuel => .out_of_fuel
                | none =>
                  match host.open_errno dev_path with
                  | some errno => .ret (some { device with access_status := errno })
                  | none => .ret (some device)

/-- A list cell of the enumeration result: the descriptor and its `next`
pointer, an index into the allocated cells (`none` is `NULL`). -/
structure enumeration_cell where
  info : ambit_device_info_t
  next : Option Nat

/-- The loop of `libambit_enumerate` over the scanned entries: `cells` are
the descriptors allocated so far, `devices` is the variable `devices`. -/
def libambit_enumerate_loop (host : Host H E) :
    List (Option udev_device) → List enumeration_cell → Option Nat →
      Outcome (List enumeration_cell × Option Nat)
  | [], cells, devices => .ret (cells, devices)
  | dev :: rest, cells, devices =>
    match ambit_device_info_new host dev with
    | .ret (some tmp) =>
      match devices with
      | some p =>
        -- `tmp->next = devices;` and `devices` keeps its value
        libambit_enumerate_loop host rest (cells ++ [⟨tmp, some p⟩]) devices
      | none =>
        -- `devices = tmp;`
        libambit_enumerate_loop host rest (cells ++ [⟨tmp, none⟩]) (some cells.length)
    | .ret none => libambit_enumerate_loop host rest cells devices
    | .out_of_bounds => .out_of_bounds
    | .out_of_fuel => .out_of_fuel

/-- The descriptors reached from the pointer `p` along `next`, the way
`libambit_free_enumeration` walks them. -/
def enumeration_from (cells : List enumeration_cell) : Nat → Option Nat → List ambit_device_info_t
  | 0, _ => []
  | _, none => []
  | fuel + 1, some p =>
    match cells.get? p with
    | some c => c.info :: enumeration_from cells fuel c.next
    | none => []

/-- The C function `libambit_enumerate`: the sequence behind the returned
pointer. -/
def libambit_enumerate (host : Host H E) : Outcome (List ambit_device_info_t) :=
  if host.udev_new = false then .ret []
  else if host.udev_enumerate_new = false then .ret []
  else
    match libambit_enumerate_loop host host.scan [] none with
    | .ret (cells, devices) => .ret (enumeration_from cells cells.length devices)
    | .out_of_bounds => .out_of_bounds
    | .out_of_fuel => .out_of_fuel

end Enumeration

/-! ## Sample devices -/

/-- A device with two stored logs whose header walk announces
`n_headers` headers and whose `failing_read`-th entry read (from 0) fails.
Headers and entries are numbered in the order they are met. -/
def sample_device (n_headers failing_read : Nat) : Env Nat Nat where
  libambit_protocol_command t cmd _ :=
    match cmd with
    | .log_count => (0, [0, 0, 2, 0])
    | .log_head_first => (0, if 0 < n_headers then [0, 4, 0, 0] else [0, 0, 0, 0])
    | .log_head_peek => (0, if markers_seen t < n_headers then [0, 4, 0, 0] else [0, 0, 0, 0])
    | .log_head => (0, [0, 0, 0, 0, 0, 0, 0, 0, skips_seen t])
    | .gps_orbit_head => (0, [0, 1, 2, 3, 4, 5, 6, 7, 8])
    | _ => (0, [])
  libambit_pmem20_log_parse_header bytes := bytes.head?
  libambit_pmem20_log_init _ := 0
  libambit_pmem20_log_next_header t := (1, t.countP Event.is_walk)
  libambit_pmem20_log_read_entry t :=
    if t.countP Event.is_read = failing_read then none else some (t.countP Event.is_read)
  libambit_pmem20_gps_orbit_write _ _ := 0

/-- A predicate that looks at the header only: it skips header 0, which
the caller already has, and answers "new" for every other header. -/
def skip_header_zero : Trace Nat Nat → Nat → Int :=
  fun _ h => if h < 1 then 0 else 1

/-- The sample device with a chunked orbit write that fails with -5. -/
def sample_orbit_device : Env Nat Nat :=
  { sample_device 0 0 with libambit_pmem20_gps_orbit_write := fun _ _ => -5 }

/-- An orbit payload whose reordered header bytes are the signature
`[1, 2, 3, 4, 5, 6, 7, 8]` that `sample_device` reports. -/
def sample_orbit_same : List Nat := [0, 0, 0, 0, 0, 0, 2, 1, 3, 4, 8, 7, 6, 5]

/-- An orbit payload that differs from the reported signature in one byte. -/
def sample_orbit_new : List Nat := [0, 0, 0, 0, 0, 0, 2, 1, 3, 4, 8, 7, 6, 9]

/-- The device-info reply of an Ambit "Bluebird" with serial "1234" and
firmware 2.1.0: 16 bytes model, 16 bytes serial, 4 + 4 bytes versions. -/
def sample_info_reply : List Nat :=
  [66, 108, 117, 101, 98, 105, 114, 100, 0, 0, 0, 0, 0, 0, 0, 0,
   49, 50, 51, 52, 0, 0, 0, 0, 0, 0, 0, 0, 0, 0, 0, 0,
   2, 1, 0, 0, 1, 0, 0, 0]

/-- A device without stored logs that answers the device-info command with
`reply`, reports the display lock state `lock_state`, and whose
`libambit_pmem20_log_init` returns `log_init`. -/
def sample_info_device (reply : List Nat) (lock_state : Nat) (log_init : Int) : Env Nat Nat where
  libambit_protocol_command _ cmd _ :=
    match cmd with
    | .device_info => (0, reply)
    | .lock_check => (0, [lock_state, 0, 0, 0])
    | .lock_set => (0, [])
    | .log_count => (0, [0, 0, 0, 0])
    | _ => (-1, [])
  libambit_pmem20_log_parse_header _ := none
  libambit_pmem20_log_init _ := log_init
  libambit_pmem20_log_next_header _ := (0, 0)
  libambit_pmem20_log_read_entry _ := none
  libambit_pmem20_gps_orbit_write _ _ := -1

/-- A `hidraw` candidate of an Ambit at the device node `path`. -/
def sample_candidate (path : String) : Option udev_device :=
  some { subsystem := some "hidraw",
         hid_parent := some { HID_ID := some "0003:00001493:00000010",
                              HID_NAME := some "Suunto Ambit", HID_UNIQ := none },
         devnode := some path }

/-- A host with two Ambits attached: `/dev/hidraw0` opens and answers with
`sample_info_reply`, `/dev/hidraw1` cannot be opened (`EACCES`). -/
def sample_host : Host Nat Nat where
  udev_new := true
  udev_enumerate_new := true
  scan := [sample_candidate "/dev/hidraw0", sample_candidate "/dev/hidraw1"]
  sscanf_hid_id id := if id = "0003:00001493:00000010" then some (0x0003, 0x1493, 0x0010) else none
  hid_open_path path := if path = "/dev/hidraw0" then some (sample_info_device sample_info_reply 0 0)
    else none
  open_errno path := if path = "/dev/hidraw0" then none else some 13
  LIBAMBIT_PRODUCT_NAME_LENGTH := 32
  LIBAMBIT_SERIAL_LENGTH := 16

/-! ## Firmware versions -/

/-- Under the byte bounds the or-ed value is the weighted sum. -/
theorem version_number_eq_sum (v : version_t) (h : v.wf) :
    version_number v = v.b0 * 2 ^ 24 + v.b1 * 2 ^ 16 + (v.b2 + v.b3 * 2 ^ 8) := by
  obtain ⟨h0, h1, h2, h3⟩ := h
  have e1 : 2 ^ 8 * v.b3 + v.b2 = 2 ^ 8 * v.b3 ||| v.b2 := Nat.mul_add_lt_is_or (by omega) _
  have e2 : 2 ^ 16 * v.b1 + (2 ^ 8 * v.b3 + v.b2) = 2 ^ 16 * v.b1 ||| (2 ^ 8 * v.b3 + v.b2) :=
    Nat.mul_add_lt_is_or (by omega) _
  have e3 : 2 ^ 24 * v.b0 + (2 ^ 16 * v.b1 + (2 ^ 8 * v.b3 + v.b2))
      = 2 ^ 24 * v.b0 ||| (2 ^ 16 * v.b1 + (2 ^ 8 * v.b3 + v.b2)) :=
    Nat.mul_add_lt_is_or (by omega) _
  have e : (v.b0 <<< 24) ||| (v.b1 <<< 16) ||| (v.b2 <<< 0) ||| (v.b3 <<< 8)
      = 2 ^ 24 * v.b0 + (2 ^ 16 * v.b1 + (2 ^ 8 * v.b3 + v.b2)) := by
    rw [e3, e2, e1]
    simp only [Nat.shiftLeft_eq, Nat.pow_zero, Nat.mul_one]
    rw [Nat.mul_comm v.b0, Nat.mul_comm v.b1, Nat.mul_comm v.b3]
    rw [Nat.lor_assoc, Nat.lor_assoc, Nat.lor_comm v.b2]
  unfold version_number
  rw [e]
  omega

/-- Under the byte bounds the patch field is `b2 + 256 * b3`. -/
theorem patch16_eq_sum (v : version_t) (h : v.wf) : patch16 v = v.b2 + v.b3 * 2 ^ 8 := by
  obtain ⟨_, _, h2, _⟩ := h
  have e1 : 2 ^ 8 * v.b3 + v.b2 = 2 ^ 8 * v.b3 ||| v.b2 := Nat.mul_add_lt_is_or (by omega) _
  unfold patch16
  simp only [Nat.shiftLeft_eq, Nat.pow_zero, Nat.mul_one]
  rw [Nat.lor_comm, Nat.mul_comm v.b3, ← e1]
  omega

/-- C8: for all four byte versions `a` and `b`, `version_number a ≤ version_number b`
holds exactly when `(a[0], a[1], a[2] | a[3] << 8)` is lexicographically at most
`(b[0], b[1], b[2] | b[3] << 8)`. -/
theorem version_number_le_iff_lex (a b : version_t) (ha : a.wf) (hb : b.wf) :
    version_number a ≤ version_number b ↔ version_lex_le a b := by
  rw [version_number_eq_sum a ha, version_number_eq_sum b hb]
  unfold version_lex_le
  rw [patch16_eq_sum a ha, patch16_eq_sum b hb]
  obtain ⟨a0, a1, a2, a3⟩ := ha
  obtain ⟨b0, b1, b2, b3⟩ := hb
  omega


/-- Witness of `version_number_le_iff_lex` at 0.2.3 and 1.1.2. -/
theorem version_number_le_iff_lex_witness :
    version_t.wf ⟨0, 2, 3, 0⟩ ∧ version_t.wf ⟨1, 1, 2, 0⟩ ∧
    (version_number ⟨0, 2, 3, 0⟩ ≤ version_number ⟨1, 1, 2, 0⟩
      ↔ version_lex_le ⟨0, 2, 3, 0⟩ ⟨1, 1, 2, 0⟩) :=
  ⟨by decide, by decide, version_number_le_iff_lex ⟨0, 2, 3, 0⟩ ⟨1, 1, 2, 0⟩ (by decide) (by decide)⟩

/-! ## The capability table -/

/-- The scan of `find_known_device` ends one position after the record
that matched. -/
theorem find_known_device_loop_found (info : ambit_device_info_t) (k : Nat)
    (hk : k < known_devices.length)
    (hmatch : find_known_device_test (known_devices.get ⟨k, hk⟩) info = some true)
    (hfirst : ∀ j (hj : j < k),
      find_known_device_test (known_devices.get ⟨j, Nat.lt_trans hj hk⟩) info = some false) :
    ∀ (d i fuel : Nat), i + d = k → d < fuel →
      find_known_device_loop info fuel false i = some (true, k + 1) := by
  intro d
  induction d with
  | zero =>
    intro i fuel hi hf
    obtain ⟨fuel, rfl⟩ : ∃ f, fuel = f + 1 := ⟨fuel - 1, by omega⟩
    have hik : i = k := by omega
    subst hik
    simp only [find_known_device_loop, Bool.not_false, if_true, dif_pos hk, hmatch]
    cases fuel <;> simp [find_known_device_loop]
  | succ d ih =>
    intro i fuel hi hf
    obtain ⟨fuel, rfl⟩ : ∃ f, fuel = f + 1 := ⟨fuel - 1, by omega⟩
    have hik : i < k := by omega
    have hil : i < known_devices.length := Nat.lt_trans hik hk
    simp only [find_known_device_loop, Bool.not_false, if_true, dif_pos hil, hfirst i hik]
    exact ih (i + 1) fuel (by omega) (by omega)

/-- What `find_known_device` returns when record `k` is the first that
matches the descriptor: `k + 1`, or `-1` when `k` is the last position. -/
theorem find_known_device_first_match (info : ambit_device_info_t) (k : Nat)
    (hk : k < known_devices.length)
    (hmatch : find_known_device_test (known_devices.get ⟨k, hk⟩) info = some true)
    (hfirst : ∀ j (hj : j < k),
      find_known_device_test (known_devices.get ⟨j, Nat.lt_trans hj hk⟩) info = some false) :
    find_known_device (some info)
      = some (if k + 1 < known_devices_count then ((k + 1 : Nat) : Int) else -1) := by
  have h := find_known_device_loop_found info k hk hmatch hfirst k 0 known_devices_count
    (by omega) hk
  simp only [find_known_device, h]

/-- C1 (defect in the code): for the Ambit with firmware 2.1.0 the first
record that matches is record 9 (supported, chunk size 0x0200), but
`find_known_device` returns 10, and identification takes support and chunk
size from record 10, which is not supported. -/
theorem find_known_device_ambit_2_1_0 :
    find_known_device (some ambit_2_1_0) = some 10 ∧
    (known_devices.get? 9).map (fun d => find_known_device_test d ambit_2_1_0) = some (some true) ∧
    (∀ d ∈ known_devices.take 9, find_known_device_test d ambit_2_1_0 = some false) ∧
    (known_devices.get? 9).map (fun d => (d.min_sw_version, d.supported, d.pmem20_chunksize))
      = some (⟨2, 1, 0, 0⟩, true, 0x0200) ∧
    (known_devices.get? 10).map (fun d => (d.min_sw_version, d.supported, d.pmem20_chunksize))
      = some (⟨1, 9, 0, 0⟩, false, 0x0200) ∧
    (ambit_device_info_new_lookup ambit_2_1_0).map (fun d => (d.is_supported, d.chunk_size))
      = some (false, 0x0200) := by
  decide

/-- C9: two records of `known_devices` at positions `i < j` with the same
vendor id, product id, name and model have strictly decreasing minimum
firmware versions. -/
theorem known_devices_ordered (i j : Nat) (a b : ambit_known_device_t) (hij : i < j)
    (ha : known_devices.get? i = some a) (hb : known_devices.get? j = some b)
    (hsame : a.vid = b.vid ∧ a.pid = b.pid ∧ a.name = b.name ∧ a.model = b.model) :
    version_number b.min_sw_version < version_number a.min_sw_version := by
  have hp : known_devices.Pairwise (fun a b =>
      (a.vid = b.vid ∧ a.pid = b.pid ∧ a.name = b.name ∧ a.model = b.model) →
        version_number b.min_sw_version < version_number a.min_sw_version) := by
    decide
  rw [List.pairwise_iff_get] at hp
  have hj : j < known_devices.length := by
    rcases Nat.lt_or_ge j known_devices.length with h | h
    · exact h
    · rw [List.get?_eq_none.mpr h] at hb; cases hb
  have hi : i < known_devices.length := Nat.lt_trans hij hj
  rw [List.get?_eq_get hi] at ha
  rw [List.get?_eq_get hj] at hb
  cases ha; cases hb
  exact hp ⟨i, hi⟩ ⟨j, hj⟩ hij hsame

/-- Witness of `known_devices_ordered` at the records 9 and 10 (Ambit
2.1.0 and 1.9.0). -/
theorem known_devices_ordered_witness :
    version_number ⟨1, 9, 0, 0⟩ < version_number ⟨2, 1, 0, 0⟩ :=
  known_devices_ordered 9 10
    ⟨SUUNTO_USB_VENDOR_ID, 0x0010, some "Bluebird", ⟨2, 1, 0, 0⟩, some "Suunto Ambit", true, 0x0200⟩
    ⟨SUUNTO_USB_VENDOR_ID, 0x0010, some "Bluebird", ⟨1, 9, 0, 0⟩, some "Suunto Ambit", false, 0x0200⟩
    (by decide) (by decide) (by decide) (by decide)

/-- The scan of `is_known_vid_pid` is a search through the records from
position `i` on. -/
theorem is_known_vid_pid_loop_eq (vid pid : Nat) :
    ∀ (fuel i : Nat) (found : Bool), is_known_vid_pid_loop vid pid fuel found i
      = (found || ((known_devices.drop i).take fuel).any
          (fun d => decide (d.vid = vid) && decide (d.pid = pid))) := by
  intro fuel
  induction fuel with
  | zero => intro i found; simp [is_known_vid_pid_loop]
  | succ fuel ih =>
    intro i found
    cases found
    · by_cases h : i < known_devices.length
      · simp only [is_known_vid_pid_loop, Bool.not_false, if_true, dif_pos h, ih]
        rw [List.drop_eq_getElem_cons h]
        simp only [List.take_succ_cons, List.any_cons, Bool.false_or, List.get_eq_getElem]
      · simp only [is_known_vid_pid_loop, Bool.not_false, if_true, dif_neg h]
        rw [List.drop_eq_nil_of_le (by omega)]
        simp
    · simp [is_known_vid_pid_loop]

/-- What `is_known_vid_pid` computes: whether some record of the table,
the terminating record included, carries the pair. -/
theorem is_known_vid_pid_iff (vid pid : Nat) :
    is_known_vid_pid vid pid = true ↔ ∃ d ∈ known_devices, d.vid = vid ∧ d.pid = pid := by
  unfold is_known_vid_pid known_devices_count
  rw [is_known_vid_pid_loop_eq]
  simp

/-- C10 (defect in the code): no device record carries the pair
`0x0000 / 0x0000`, yet `is_known_vid_pid` accepts it, because the scan
also visits the terminating record. -/
theorem is_known_vid_pid_zero :
    is_known_vid_pid 0x0000 0x0000 = true ∧
    (∀ d ∈ known_devices.take 14, ¬ (d.vid = 0x0000 ∧ d.pid = 0x0000)) ∧
    known_devices.length = 15 ∧
    (known_devices.get? 14).map (fun d => (d.vid, d.pid, d.name, d.model))
      = some (0x0000, 0x0000, none, none) := by
  decide

/-! ## The header scan -/

section Prescan

variable {H E : Type}

/-- The actions of one round of the header scan are commands and calls of
the predicate, and a `return` inside the round returns -1. -/
theorem log_read_prescan_body_events (env : Env H E) (skip_cb : Trace H E → H → Int)
    (t : Trace H E) (x : BodyExit) (p : Trace H E)
    (h : log_read_prescan_body env skip_cb t = Outcome.ret (x, p)) :
    (∀ e ∈ p, e.is_command = true ∨ e.is_skip = true) ∧ (∀ v, x = BodyExit.returned v → v = -1) := by
  simp only [log_read_prescan_body] at h
  repeat' split at h
  all_goals first
    | (cases h; simp [logged, Event.is_command, Event.is_skip])
    | (simp at h)

/-- The header scan only adds commands and calls of the predicate, and a
`return` inside it returns -1. -/
theorem log_read_prescan_loop_events (env : Env H E) (skip_cb : Trace H E → H → Int) :
    ∀ (fuel more : Nat) (t : Trace H E) (x : LoopExit) (t' : Trace H E),
      log_read_prescan_loop env skip_cb fuel more t = Outcome.ret (x, t') →
      ∃ p, t' = t ++ p ∧ (∀ e ∈ p, e.is_command = true ∨ e.is_skip = true) ∧
        (∀ v, x = LoopExit.returned v → v = -1) := by
  intro fuel
  induction fuel with
  | zero => intro more t x t' h; simp [log_read_prescan_loop] at h
  | succ fuel ih =>
    intro more t x t' h
    simp only [log_read_prescan_loop] at h
    split at h
    · split at h
      · rename_i v p hb
        cases h
        obtain ⟨h1, h2⟩ := log_read_prescan_body_events env skip_cb t _ _ hb
        exact ⟨p, rfl, h1, fun w hw => by cases hw; exact h2 v rfl⟩
      · rename_i p hb
        cases h
        obtain ⟨h1, _⟩ := log_read_prescan_body_events env skip_cb t _ _ hb
        exact ⟨p, rfl, h1, fun w hw => by cases hw⟩
      · rename_i more' p hb
        obtain ⟨h1, _⟩ := log_read_prescan_body_events env skip_cb t _ _ hb
        obtain ⟨q, hq, h3, h4⟩ := ih more' (t ++ p) x t' h
        refine ⟨p ++ q, by rw [hq, List.append_assoc], ?_, h4⟩
        intro e he
        rcases List.mem_append.mp he with he | he
        · exact h1 e he
        · exact h3 e he
      · cases h
      · cases h
    · cases h
      exact ⟨[], by simp, by simp, fun w hw => by cases hw⟩

/-- The part before `if (read_pmem)` only adds commands and calls of the
predicate, and a `return` inside it returns -1. -/
theorem log_read_prescan_events (env : Env H E) (skip_cb : Option (Trace H E → H → Int))
    (fuel : Nat) (t : Trace H E) (x : LoopExit) (t' : Trace H E)
    (h : log_read_prescan env skip_cb fuel t = Outcome.ret (x, t')) :
    ∃ p, t' = t ++ p ∧ (∀ e ∈ p, e.is_command = true ∨ e.is_skip = true) ∧
      (∀ v, x = LoopExit.returned v → v = -1) := by
  rcases skip_cb with _ | skip
  · simp only [log_read_prescan] at h
    cases h
    exact ⟨[], by simp, by simp, fun w hw => by cases hw⟩
  · simp only [log_read_prescan] at h
    split at h
    · cases h
      exact ⟨_, rfl, by simp [logged, Event.is_command], fun w hw => by cases hw; rfl⟩
    · split at h
      · cases h
      · obtain ⟨q, hq, h3, h4⟩ := log_read_prescan_loop_events env skip _ _ _ _ _ h
        refine ⟨[logged env t .log_head_first []] ++ q, by rw [hq, List.append_assoc], ?_, h4⟩
        intro e he
        rcases List.mem_append.mp he with he | he
        · simp only [List.mem_singleton] at he
          subst he; simp [logged, Event.is_command]
        · exact h3 e he

end Prescan

/-! ## The bulk loop -/

section BulkLoop

variable {H E : Type}

/-- The actions of one round of the bulk loop, counted by kind. -/
theorem log_read_bulk_body_counts (env : Env H E) (skip_cb : Option (Trace H E → H → Int))
    (push_cb progress_cb : Bool) (total walked : Nat) (er : Int) (h : H) (t1 : Trace H E) :
    (log_read_bulk_body env skip_cb push_cb progress_cb total walked er h t1).1
      = er + ((log_read_bulk_body env skip_cb push_cb progress_cb total walked er h t1).2.countP
          Event.is_read_ok : Nat) ∧
    (log_read_bulk_body env skip_cb push_cb progress_cb total walked er h t1).2.countP
      Event.is_walk = 0 ∧
    (log_read_bulk_body env skip_cb push_cb progress_cb total walked er h t1).2.countP
      Event.is_skip = (if skip_cb.isSome then 1 else 0) ∧
    (log_read_bulk_body env skip_cb push_cb progress_cb total walked er h t1).2.countP
      Event.is_read = (if skip_cb.isSome then
        (log_read_bulk_body env skip_cb push_cb progress_cb total walked er h t1).2.countP
          Event.is_new else 1) ∧
    (log_read_bulk_body env skip_cb push_cb progress_cb total walked er h t1).2.countP
      Event.is_push = (if push_cb then
        (log_read_bulk_body env skip_cb push_cb progress_cb total walked er h t1).2.countP
          Event.is_read_ok else 0) ∧
    (log_read_bulk_body env skip_cb push_cb progress_cb total walked er h t1).2.countP
      Event.is_progress = (if progress_cb then 2 else 0) ∧
    (∀ e ∈ (log_read_bulk_body env skip_cb push_cb progress_cb total walked er h t1).2,
      e.is_command = false ∧ e.is_log_init = false ∧ e.is_gps_orbit_write = false) := by
  rcases skip_cb with _ | skip
  · simp only [log_read_bulk_body]
    generalize env.libambit_pmem20_log_read_entry _ = entry
    cases entry <;> cases push_cb <;> cases progress_cb <;>
      simp [report_progress, Event.is_read_ok, Event.is_walk, Event.is_skip, Event.is_read,
        Event.is_new, Event.is_push, Event.is_progress, Event.is_command, Event.is_log_init,
        Event.is_gps_orbit_write]
  · simp only [log_read_bulk_body]
    generalize skip _ h = a
    generalize env.libambit_pmem20_log_read_entry _ = entry
    by_cases ha : a = 0 <;> cases entry <;> cases push_cb <;> cases progress_cb <;>
      simp [report_progress, Event.is_read_ok, Event.is_walk, Event.is_skip, Event.is_read,
        Event.is_new, Event.is_push, Event.is_progress, Event.is_command, Event.is_log_init,
        Event.is_gps_orbit_write, ha]

/-- In one round with a predicate, the entry is read only right after the
answer "new". -/
theorem log_read_bulk_body_only_new (env : Env H E) (skip : Trace H E → H → Int)
    (push_cb progress_cb : Bool) (total walked : Nat) (er : Int) (h : H) (t1 rest : Trace H E)
    (hrest : ∀ prev, reads_follow_new prev rest = true) (prev : Option (Event H E)) :
    reads_follow_new prev
      ((log_read_bulk_body env (some skip) push_cb progress_cb total walked er h t1).2 ++ rest)
      = true := by
  simp only [log_read_bulk_body]
  generalize skip _ h = a
  generalize env.libambit_pmem20_log_read_entry _ = entry
  by_cases ha : a = 0 <;> cases entry <;> cases push_cb <;> cases progress_cb <;>
    simp [report_progress, reads_follow_new, Event.is_read, Event.is_new, ha, hrest]

/-- The bulk loop always returns within `total - walked + 1` rounds of
fuel; it returns the number of entries read, and its actions satisfy
`BulkFacts`, whatever the device and the callbacks answer. -/
theorem log_read_bulk_loop_spec (env : Env H E) (skip_cb : Option (Trace H E → H → Int))
    (push_cb progress_cb : Bool) (total : Nat) (htot : total < 2 ^ 16) :
    ∀ (fuel walked : Nat) (er : Int) (t : Trace H E), walked ≤ total → total - walked < fuel →
      ∃ b, log_read_bulk_loop env skip_cb push_cb progress_cb total fuel walked er t
          = Outcome.ret (er + (b.countP Event.is_read_ok : Nat), t ++ b) ∧
        BulkFacts skip_cb push_cb progress_cb total walked b := by
  intro fuel
  induction fuel with
  | zero => intro walked er t _ h; omega
  | succ fuel ih =>
    intro walked er t hle hfuel
    simp only [log_read_bulk_loop]
    by_cases hw : walked < total
    · by_cases hr : (env.libambit_pmem20_log_next_header t).1 = 1
      · have hmod : (walked + 1) % 2 ^ 16 = walked + 1 := Nat.mod_eq_of_lt (by omega)
        rw [if_pos hw, if_pos hr, hmod]
        obtain ⟨h1, h2, h3, h4, h5, h6, h7⟩ := log_read_bulk_body_counts env skip_cb push_cb
          progress_cb total walked er (env.libambit_pmem20_log_next_header t).2
          (t ++ [Event.pmem20_log_next_header (env.libambit_pmem20_log_next_header t).1
            (env.libambit_pmem20_log_next_header t).2])
        generalize hbody : log_read_bulk_body env skip_cb push_cb progress_cb total walked er
          (env.libambit_pmem20_log_next_header t).2
          (t ++ [Event.pmem20_log_next_header (env.libambit_pmem20_log_next_header t).1
            (env.libambit_pmem20_log_next_header t).2]) = body at h1 h2 h3 h4 h5 h6 h7 ⊢
        obtain ⟨b, hb, fb⟩ := ih (walked + 1) body.1
          (t ++ [Event.pmem20_log_next_header (env.libambit_pmem20_log_next_header t).1
            (env.libambit_pmem20_log_next_header t).2] ++ body.2) (by omega) (by omega)
        refine ⟨[Event.pmem20_log_next_header (env.libambit_pmem20_log_next_header t).1
            (env.libambit_pmem20_log_next_header t).2] ++ body.2 ++ b, ?_, ?_⟩
        · rw [hb, h1]
          simp [List.countP_append, List.countP_cons, Event.is_read_ok, List.append_assoc]
          omega
        · have hwalk : List.countP Event.is_walk
              ([Event.pmem20_log_next_header (env.libambit_pmem20_log_next_header t).1
                (env.libambit_pmem20_log_next_header t).2] ++ body.2 ++ b)
              = 1 + List.countP Event.is_walk b := by
            simp [List.countP_append, List.countP_cons, Event.is_walk, hr, h2]
            omega
          constructor
          · rw [hwalk]; have := fb.walked_le; omega
          · rw [hwalk]
            rcases fb.stop with hs | ⟨r, hh, hne, hlast⟩
            · left; omega
            · right
              refine ⟨r, hh, hne, ?_⟩
              have hbne : b ≠ [] := by
                intro hnil; rw [hnil] at hlast; simp at hlast
              rw [List.getLast?_append_of_ne_nil _ hbne]
              exact hlast
          · rw [hwalk]
            simp only [List.countP_append, List.countP_cons, List.countP_nil, Event.is_skip, h3,
              fb.skips]
            cases skip_cb <;> simp
          · rw [hwalk]
            simp only [List.countP_append, List.countP_cons, List.countP_nil, Event.is_read,
              Event.is_new, h4, fb.reads]
            cases skip_cb <;> simp
          · simp only [List.countP_append, List.countP_cons, List.countP_nil, Event.is_push,
              Event.is_read_ok, h5, fb.pushes]
            cases push_cb <;> simp
          · rw [hwalk]
            simp only [List.countP_append, List.countP_cons, List.countP_nil, Event.is_progress,
              h6, fb.progress]
            cases progress_cb
            · simp
            · simp; omega
          · intro e he
            simp only [List.mem_append, List.mem_singleton] at he
            rcases he with (he | he) | he
            · subst he; simp [Event.is_command, Event.is_log_init, Event.is_gps_orbit_write]
            · exact h7 e he
            · exact fb.quiet e he
          · intro hs prev
            obtain ⟨skip, rfl⟩ := Option.isSome_iff_exists.mp hs
            subst hbody
            simp only [List.append_assoc, List.singleton_append, reads_follow_new, Event.is_read,
              Bool.not_false, Bool.true_or, Bool.true_and]
            exact log_read_bulk_body_only_new env skip push_cb progress_cb total walked er _ _ b
              (fb.only_new hs) _
      · rw [if_pos hw, if_neg hr]
        refine ⟨[Event.pmem20_log_next_header (env.libambit_pmem20_log_next_header t).1
            (env.libambit_pmem20_log_next_header t).2], ?_, ?_⟩
        · simp [Event.is_read_ok]
        · constructor
          · simp [Event.is_walk, hr]; omega
          · right
            exact ⟨_, _, hr, rfl⟩
          · cases skip_cb <;> simp [Event.is_skip, Event.is_walk, hr]
          · cases skip_cb <;> simp [Event.is_read, Event.is_new, Event.is_walk, hr]
          · cases push_cb <;> simp [Event.is_push, Event.is_read_ok]
          · cases progress_cb <;> simp [Event.is_progress, Event.is_walk, hr]
          · intro e he
            simp only [List.mem_singleton] at he
            subst he; simp [Event.is_command, Event.is_log_init, Event.is_gps_orbit_write]
          · intro _ prev
            simp [reads_follow_new, Event.is_read]
    · rw [if_neg hw]
      refine ⟨[], by simp, ?_⟩
      constructor
      · simp; omega
      · left; simp; omega
      · cases skip_cb <;> simp
      · cases skip_cb <;> simp
      · cases push_cb <;> simp
      · cases progress_cb <;> simp
      · intro e he; simp at he
      · intro _ prev; simp [reads_follow_new]

end BulkLoop

/-! ## The whole of `libambit_log_read` -/

section LogRead

variable {H E : Type}

/-- More fuel does not change what the bulk loop returns. -/
theorem log_read_bulk_loop_mono (env : Env H E) (skip_cb : Option (Trace H E → H → Int))
    (push_cb progress_cb : Bool) (total : Nat) :
    ∀ (fuel walked : Nat) (er : Int) (t : Trace H E) (x : Int × Trace H E),
      log_read_bulk_loop env skip_cb push_cb progress_cb total fuel walked er t = Outcome.ret x →
      ∀ k, log_read_bulk_loop env skip_cb push_cb progress_cb total (fuel + k) walked er t
        = Outcome.ret x := by
  intro fuel
  induction fuel with
  | zero => intro walked er t x h; simp [log_read_bulk_loop] at h
  | succ fuel ih =>
    intro walked er t x h k
    rw [show fuel + 1 + k = (fuel + k) + 1 by omega]
    simp only [log_read_bulk_loop] at h ⊢
    by_cases hw : walked < total
    · by_cases hr : (env.libambit_pmem20_log_next_header t).1 = 1
      · rw [if_pos hw, if_pos hr] at h ⊢
        exact ih _ _ _ _ h k
      · rw [if_pos hw, if_neg hr] at h ⊢
        exact h
    · rw [if_neg hw] at h ⊢
      exact h

/-- Whenever the bulk loop, entered with no entry walked, returns, it
returns the number of entries read and its actions satisfy `BulkFacts`. -/
theorem log_read_bulk_loop_ret (env : Env H E) (skip_cb : Option (Trace H E → H → Int))
    (push_cb progress_cb : Bool) (total : Nat) (htot : total < 2 ^ 16) (fuel : Nat) (er : Int)
    (t : Trace H E) (r : Int) (t' : Trace H E)
    (h : log_read_bulk_loop env skip_cb push_cb progress_cb total fuel 0 er t = Outcome.ret (r, t')) :
    ∃ b, t' = t ++ b ∧ r = er + (b.countP Event.is_read_ok : Nat) ∧
      BulkFacts skip_cb push_cb progress_cb total 0 b := by
  have h1 := log_read_bulk_loop_mono env skip_cb push_cb progress_cb total fuel 0 er t _ h
    (total + 1)
  obtain ⟨b, hb, fb⟩ := log_read_bulk_loop_spec env skip_cb push_cb progress_cb total htot
    (fuel + (total + 1)) 0 er t (by omega) (by omega)
  rw [hb] at h1
  cases h1
  exact ⟨b, rfl, rfl, fb⟩

/-- The decoded log count is a `uint16_t`. -/
theorem le16toh_at_lt (reply : List Nat) (off n : Nat) (h : le16toh_at reply off = some n) :
    n < 2 ^ 16 := by
  unfold le16toh_at at h
  split at h
  · cases h; exact Nat.mod_lt _ (by norm_num)
  · cases h

/-- A command or a call of the predicate is no action of the bulk phase. -/
theorem scan_event (e : Event H E) (h : e.is_command = true ∨ e.is_skip = true) :
    e.is_log_init = false ∧ e.is_next_header = false ∧ e.is_read = false ∧
    e.is_read_ok = false ∧ e.is_push = false ∧ e.is_progress = false := by
  cases e <;>
    simp [Event.is_command, Event.is_skip, Event.is_log_init, Event.is_next_header,
      Event.is_read, Event.is_read_ok, Event.is_push, Event.is_progress] at h ⊢

/-- Actions that are commands or calls of the predicate are none of the
bulk phase. -/
theorem scan_counts_zero (p : Trace H E) (hp : ∀ e ∈ p, e.is_command = true ∨ e.is_skip = true) :
    p.countP Event.is_log_init = 0 ∧ p.countP Event.is_next_header = 0 ∧
    p.countP Event.is_read = 0 ∧ p.countP Event.is_read_ok = 0 ∧
    p.countP Event.is_push = 0 ∧ p.countP Event.is_progress = 0 := by
  simp only [List.countP_eq_zero, Bool.not_eq_true]
  exact ⟨fun e he => (scan_event e (hp e he)).1, fun e he => (scan_event e (hp e he)).2.1,
    fun e he => (scan_event e (hp e he)).2.2.1, fun e he => (scan_event e (hp e he)).2.2.2.1,
    fun e he => (scan_event e (hp e he)).2.2.2.2.1, fun e he => (scan_event e (hp e he)).2.2.2.2.2⟩

/-- The three ways `libambit_log_read` returns: with -1; with 0 after a
header scan that found nothing new; or after the bulk loop, with the number
of entries read. -/
theorem libambit_log_read_cases (env : Env H E) (skip_cb : Option (Trace H E → H → Int))
    (push_cb progress_cb : Bool) (fuel : Nat) (r : Int) (trace : Trace H E)
    (h : libambit_log_read env skip_cb push_cb progress_cb fuel = Outcome.ret (r, trace)) :
    r = -1 ∨
    (r = 0 ∧ ∀ e ∈ trace, e.is_command = true ∨ e.is_skip = true) ∨
    (∃ total pre b,
      le16toh_at (env.libambit_protocol_command [] .log_count []).2 2 = some total ∧
      trace = pre ++ [Event.pmem20_log_init 0] ++ b ∧
      (∀ e ∈ pre, e.is_command = true ∨ e.is_skip = true) ∧
      r = (b.countP Event.is_read_ok : Nat) ∧
      BulkFacts skip_cb push_cb progress_cb total 0 b) := by
  simp only [libambit_log_read] at h
  split at h
  · cases h; exact Or.inl rfl
  · split at h
    · cases h
    · rename_i total htotal
      split at h
      · cases h
      · cases h
      · rename_i v t hpre
        cases h
        obtain ⟨p, _, _, hv⟩ := log_read_prescan_events env skip_cb fuel _ _ _ hpre
        exact Or.inl (hv r rfl)
      · rename_i t hpre
        cases h
        obtain ⟨p, hp, hev, _⟩ := log_read_prescan_events env skip_cb fuel _ _ _ hpre
        refine Or.inr (Or.inl ⟨rfl, ?_⟩)
        intro e he
        rw [hp] at he
        rcases List.mem_append.mp he with he | he
        · simp only [List.mem_singleton] at he
          subst he; simp [logged, Event.is_command]
        · exact hev e he
      · rename_i t hpre
        obtain ⟨p, hp, hev, _⟩ := log_read_prescan_events env skip_cb fuel _ _ _ hpre
        split at h
        · cases h; exact Or.inl rfl
        · rename_i hinit
          have hinit0 : env.libambit_pmem20_log_init t = 0 := not_not.mp hinit
          rw [hinit0] at h
          obtain ⟨b, hb, hr, fb⟩ := log_read_bulk_loop_ret env skip_cb push_cb progress_cb total
            (le16toh_at_lt _ _ _ htotal) fuel 0 _ r trace h
          refine Or.inr (Or.inr ⟨total, t, b, htotal, hb, ?_, by simpa using hr, fb⟩)
          intro e he
          rw [hp] at he
          rcases List.mem_append.mp he with he | he
          · simp only [List.mem_singleton] at he
            subst he; simp [logged, Event.is_command]
          · exact hev e he

end LogRead


/-! ## GPS orbit data: the claims -/

section GpsOrbit

variable {H E : Type}

/-- For a payload of at least 14 bytes `cmpheader` is the reordered view
`payload[7, 6, 8, 9, 13, 12, 11, 10]`. -/
theorem cmpheader_eq (data : List Nat) (hlen : 14 ≤ data.length) :
    cmpheader data = some [data.getD 7 0, data.getD 6 0, data.getD 8 0, data.getD 9 0,
      data.getD 13 0, data.getD 12 0, data.getD 11 0, data.getD 10 0] := by
  have h6 : 6 < data.length := by omega
  have h7 : 7 < data.length := by omega
  have h8 : 8 < data.length := by omega
  have h9 : 9 < data.length := by omega
  have h10 : 10 < data.length := by omega
  have h11 : 11 < data.length := by omega
  have h12 : 12 < data.length := by omega
  have h13 : 13 < data.length := by omega
  simp [cmpheader, List.getD_eq_getElem?_getD, List.getElem?_eq_getElem, h6, h7, h8, h9, h10,
    h11, h12, h13]

/-- C6: for a payload of at least 14 bytes and a run in which the header
read succeeds with the signature `d` (the reply bytes 1 to 8), the chunked
write `libambit_pmem20_gps_orbit_write` is called exactly when `d`
differs from `payload[7, 6, 8, 9, 13, 12, 11, 10]`.  When they are equal the
function returns 0 after the two commands; otherwise it calls the chunked
write once, after the two commands, and returns the value the chunked write
returned. -/
theorem libambit_gps_orbit_write_iff_differs (env : Env H E) (data : List Nat)
    (hlen : 14 ≤ data.length)
    (hst : (env.libambit_protocol_command [logged env [] .write_start []] .gps_orbit_head []).1 = 0)
    (hrl : 9 ≤ (env.libambit_protocol_command [logged env [] .write_start []]
      .gps_orbit_head []).2.length) :
    ∃ r trace, libambit_gps_orbit_write env data = Outcome.ret (r, trace) ∧
      (trace.any Event.is_gps_orbit_write = true ↔
        ((env.libambit_protocol_command [logged env [] .write_start []] .gps_orbit_head []).2.drop 1).take 8
          ≠ [data.getD 7 0, data.getD 6 0, data.getD 8 0, data.getD 9 0,
              data.getD 13 0, data.getD 12 0, data.getD 11 0, data.getD 10 0]) ∧
      (((env.libambit_protocol_command [logged env [] .write_start []] .gps_orbit_head []).2.drop 1).take 8
          = [data.getD 7 0, data.getD 6 0, data.getD 8 0, data.getD 9 0,
              data.getD 13 0, data.getD 12 0, data.getD 11 0, data.getD 10 0] →
        r = 0 ∧
        trace = [logged env [] .write_start [],
          logged env [logged env [] .write_start []] .gps_orbit_head []]) ∧
      (((env.libambit_protocol_command [logged env [] .write_start []] .gps_orbit_head []).2.drop 1).take 8
          ≠ [data.getD 7 0, data.getD 6 0, data.getD 8 0, data.getD 9 0,
              data.getD 13 0, data.getD 12 0, data.getD 11 0, data.getD 10 0] →
        r = env.libambit_pmem20_gps_orbit_write
              [logged env [] .write_start [],
               logged env [logged env [] .write_start []] .gps_orbit_head []] data ∧
        trace = [logged env [] .write_start [],
          logged env [logged env [] .write_start []] .gps_orbit_head [],
          Event.pmem20_gps_orbit_write data (env.libambit_pmem20_gps_orbit_write
            [logged env [] .write_start [],
             logged env [logged env [] .write_start []] .gps_orbit_head []] data)] ∧
        trace.countP Event.is_gps_orbit_write = 1) := by
  have hcmp := cmpheader_eq data hlen
  by_cases hd : ((env.libambit_protocol_command [logged env [] .write_start []]
      .gps_orbit_head []).2.drop 1).take 8
      = [data.getD 7 0, data.getD 6 0, data.getD 8 0, data.getD 9 0,
          data.getD 13 0, data.getD 12 0, data.getD 11 0, data.getD 10 0]
  · refine ⟨0, [logged env [] .write_start [],
      logged env [logged env [] .write_start []] .gps_orbit_head []], ?_, ?_, ?_, ?_⟩
    · simp only [libambit_gps_orbit_write, libambit_gps_orbit_header_read, hst, hrl, and_self,
        if_true, hcmp, hd, ne_eq, not_true_eq_false, if_false, List.singleton_append]
    · constructor
      · intro h; simp [logged, Event.is_gps_orbit_write] at h
      · intro h; exact absurd hd h
    · intro _; exact ⟨rfl, rfl⟩
    · intro h; exact absurd hd h
  · refine ⟨env.libambit_pmem20_gps_orbit_write [logged env [] .write_start [],
        logged env [logged env [] .write_start []] .gps_orbit_head []] data,
      [logged env [] .write_start [],
        logged env [logged env [] .write_start []] .gps_orbit_head [],
        Event.pmem20_gps_orbit_write data (env.libambit_pmem20_gps_orbit_write
          [logged env [] .write_start [],
           logged env [logged env [] .write_start []] .gps_orbit_head []] data)],
      ?_, ?_, ?_, ?_⟩
    · simp only [libambit_gps_orbit_write, libambit_gps_orbit_header_read, hst, hrl, and_self,
        if_true, hcmp, hd, ne_eq, not_false_eq_true, List.singleton_append, List.cons_append,
        List.nil_append]
    · constructor
      · intro _; exact hd
      · intro _; simp [logged, Event.is_gps_orbit_write]
    · intro h; exact absurd h hd
    · intro _
      refine ⟨rfl, rfl, ?_⟩
      simp [logged, Event.is_gps_orbit_write]

/-- Witness of `libambit_gps_orbit_write_iff_differs`: a payload that
differs from the signature in one byte, on a device whose chunked write
fails with -5; the function returns that -5. -/
theorem libambit_gps_orbit_write_iff_differs_witness :
    ∃ r trace, libambit_gps_orbit_write sample_orbit_device sample_orbit_new
        = Outcome.ret (r, trace) ∧
      (trace.any Event.is_gps_orbit_write = true ↔
        [1, 2, 3, 4, 5, 6, 7, 8] ≠ [1, 2, 3, 4, 9, 6, 7, 8]) ∧
      ([1, 2, 3, 4, 5, 6, 7, 8] = [1, 2, 3, 4, 9, 6, 7, 8] →
        r = 0 ∧
        trace = [Event.command .write_start [] 0 [],
          Event.command .gps_orbit_head [] 0 [0, 1, 2, 3, 4, 5, 6, 7, 8]]) ∧
      ([1, 2, 3, 4, 5, 6, 7, 8] ≠ [1, 2, 3, 4, 9, 6, 7, 8] →
        r = -5 ∧
        trace = [Event.command .write_start [] 0 [],
          Event.command .gps_orbit_head [] 0 [0, 1, 2, 3, 4, 5, 6, 7, 8],
          Event.pmem20_gps_orbit_write sample_orbit_new (-5)] ∧
        trace.countP Event.is_gps_orbit_write = 1) :=
  libambit_gps_orbit_write_iff_differs sample_orbit_device sample_orbit_new (by decide)
    (by decide) (by decide)

/-- C7, as stated, fails: with the signature equal to the reordered payload
bytes the run still sends the "write start" command, before the header
read, so the header read is not the only command exchanged. -/
theorem libambit_gps_orbit_write_sends_write_start :
    cmpheader sample_orbit_same = some [1, 2, 3, 4, 5, 6, 7, 8] ∧
    libambit_gps_orbit_write (sample_device 0 0) sample_orbit_same
      = Outcome.ret (0, [Event.command .write_start [] 0 [],
          Event.command .gps_orbit_head [] 0 [0, 1, 2, 3, 4, 5, 6, 7, 8]]) ∧
    ¬ (∀ e ∈ [Event.command .write_start [] 0 [],
          (Event.command .gps_orbit_head [] 0 [0, 1, 2, 3, 4, 5, 6, 7, 8] : Event Nat Nat)],
        e.is_cmd .gps_orbit_head = true) := by
  decide

/-- C7, amended: when the device's signature equals the reordered payload
bytes, the function returns 0 and the chunked write is not called; the
run consists of exactly two commands, "write start" and then the header
read. -/
theorem libambit_gps_orbit_write_same_signature (env : Env H E) (data : List Nat)
    (hlen : 14 ≤ data.length)
    (hst : (env.libambit_protocol_command [logged env [] .write_start []] .gps_orbit_head []).1 = 0)
    (hrl : 9 ≤ (env.libambit_protocol_command [logged env [] .write_start []]
      .gps_orbit_head []).2.length)
    (hsame : ((env.libambit_protocol_command [logged env [] .write_start []]
        .gps_orbit_head []).2.drop 1).take 8
      = [data.getD 7 0, data.getD 6 0, data.getD 8 0, data.getD 9 0,
          data.getD 13 0, data.getD 12 0, data.getD 11 0, data.getD 10 0]) :
    libambit_gps_orbit_write env data
      = Outcome.ret (0, [logged env [] .write_start [],
          logged env [logged env [] .write_start []] .gps_orbit_head []]) := by
  simp only [libambit_gps_orbit_write, libambit_gps_orbit_header_read, hst, hrl, and_self,
    if_true, cmpheader_eq data hlen, hsame, ne_eq, not_true_eq_false, if_false,
    List.singleton_append]

/-- Witness of `libambit_gps_orbit_write_same_signature` at the sample
device and a payload that carries its signature. -/
theorem libambit_gps_orbit_write_same_signature_witness :
    libambit_gps_orbit_write (sample_device 0 0) sample_orbit_same
      = Outcome.ret (0, [logged (sample_device 0 0) [] .write_start [],
          logged (sample_device 0 0) [logged (sample_device 0 0) [] .write_start []]
            .gps_orbit_head []]) :=
  libambit_gps_orbit_write_same_signature (sample_device 0 0) sample_orbit_same (by decide)
    (by decide) (by decide) (by decide)

end GpsOrbit


/-! ## Log synchronisation: the claims -/

section LogReadClaims

variable {H E : Type}

/-- C2, as stated, fails: the first entry read fails (`NULL`), yet the walk
goes on to the second entry, which is read and pushed, and the function
returns 1, not -1. -/
theorem libambit_log_read_goes_on_after_failed_read :
    libambit_log_read (sample_device 0 0) none true false 3
      = Outcome.ret (1, [Event.command .log_count [] 0 [0, 0, 2, 0],
          Event.pmem20_log_init 0,
          Event.pmem20_log_next_header 1 0, Event.pmem20_log_read_entry none,
          Event.pmem20_log_next_header 1 1, Event.pmem20_log_read_entry (some 1),
          Event.push_cb 1]) := by
  decide

/-- C2, amended: once the bulk phase is reached (`libambit_pmem20_log_init`
returned 0) the function does not abort, whatever
`libambit_pmem20_log_read_entry` returns: it returns the number of entries
read successfully, each of them is pushed when there is a consumer, and
the walk ends only when `log_count` entries are walked or `next_header`
did not return 1. -/
theorem libambit_log_read_bulk_never_aborts (env : Env H E)
    (skip_cb : Option (Trace H E → H → Int)) (push_cb progress_cb : Bool)
    (fuel total : Nat) (pre : Trace H E)
    (hst : (env.libambit_protocol_command [] .log_count []).1 = 0)
    (hcount : le16toh_at (env.libambit_protocol_command [] .log_count []).2 2 = some total)
    (hpre : log_read_prescan env skip_cb fuel [logged env [] .log_count []]
      = Outcome.ret (LoopExit.fell_through true, pre))
    (hinit : env.libambit_pmem20_log_init pre = 0)
    (hfuel : total < fuel) :
    ∃ b, libambit_log_read env skip_cb push_cb progress_cb fuel
        = Outcome.ret (((b.countP Event.is_read_ok : Nat) : Int), pre ++ [Event.pmem20_log_init 0] ++ b) ∧
      b.countP Event.is_push = (if push_cb then b.countP Event.is_read_ok else 0) ∧
      b.countP Event.is_walk ≤ total ∧
      (b.countP Event.is_walk = total ∨
        ∃ r h, r ≠ 1 ∧ b.getLast? = some (Event.pmem20_log_next_header r h)) := by
  obtain ⟨b, hb, fb⟩ := log_read_bulk_loop_spec env skip_cb push_cb progress_cb total
    (le16toh_at_lt _ _ _ hcount) fuel 0 0 (pre ++ [Event.pmem20_log_init 0]) (by omega) (by omega)
  refine ⟨b, ?_, fb.pushes, by simpa using fb.walked_le, by simpa using fb.stop⟩
  simp only [libambit_log_read, hst, ne_eq, not_true_eq_false, if_false, hcount, hpre, hinit, hb,
    Int.zero_add]

/-- Witness of `libambit_log_read_bulk_never_aborts` at the sample device
whose first entry read fails. -/
theorem libambit_log_read_bulk_never_aborts_witness :
    ∃ b, libambit_log_read (sample_device 0 0) none true false 3
        = Outcome.ret (((b.countP Event.is_read_ok : Nat) : Int),
            [logged (sample_device 0 0) [] .log_count []] ++ [Event.pmem20_log_init 0] ++ b) ∧
      b.countP Event.is_push = (if true then b.countP Event.is_read_ok else 0) ∧
      b.countP Event.is_walk ≤ 2 ∧
      (b.countP Event.is_walk = 2 ∨
        ∃ r h, r ≠ 1 ∧ b.getLast? = some (Event.pmem20_log_next_header r h)) :=
  libambit_log_read_bulk_never_aborts (sample_device 0 0) none true false 3 2
    [logged (sample_device 0 0) [] .log_count []] (by decide) (by decide) (by decide)
    (by decide) (by decide)

/-- The run behind the witness, evaluated: two headers are scanned, the
bulk walk skips entry 0 for the same predicate and reads entry 1, and the
function returns 1. -/
theorem libambit_log_read_skip_header_zero_run :
    libambit_log_read (sample_device 2 5) (some skip_header_zero) true false 3
      = Outcome.ret (1, [Event.command .log_count [] 0 [0, 0, 2, 0],
          Event.command .log_head_first [] 0 [0, 4, 0, 0],
          Event.command .log_head_step [] 0 [],
          Event.command .log_head [] 0 [0, 0, 0, 0, 0, 0, 0, 0, 0],
          Event.command .log_head [] 0 [0, 0, 0, 0, 0, 0, 0, 0, 0],
          Event.skip_cb 0 0,
          Event.command .log_head_peek [] 0 [0, 4, 0, 0],
          Event.command .log_head_step [] 0 [],
          Event.command .log_head [] 0 [0, 0, 0, 0, 0, 0, 0, 0, 1],
          Event.command .log_head [] 0 [0, 0, 0, 0, 0, 0, 0, 0, 1],
          Event.skip_cb 1 1,
          Event.pmem20_log_init 0,
          Event.pmem20_log_next_header 1 0, Event.skip_cb 0 0,
          Event.pmem20_log_next_header 1 1, Event.skip_cb 1 1,
          Event.pmem20_log_read_entry (some 0), Event.push_cb 0]) := by
  decide

/-- C5, as stated, fails: without a push consumer two entries are read and
the function returns 2, while `push_cb` is never called. -/
theorem libambit_log_read_counts_without_consumer :
    libambit_log_read (sample_device 0 5) none false false 3
      = Outcome.ret (2, [Event.command .log_count [] 0 [0, 0, 2, 0],
          Event.pmem20_log_init 0,
          Event.pmem20_log_next_header 1 0, Event.pmem20_log_read_entry (some 0),
          Event.pmem20_log_next_header 1 1, Event.pmem20_log_read_entry (some 1)]) ∧
    List.countP Event.is_push [Event.command .log_count [] 0 [0, 0, 2, 0],
          Event.pmem20_log_init 0,
          Event.pmem20_log_next_header 1 0, Event.pmem20_log_read_entry (some 0),
          Event.pmem20_log_next_header 1 1,
          (Event.pmem20_log_read_entry (some 1) : Event Nat Nat)] = 0 := by
  decide

/-- C5, amended: a run that does not return -1 returns the number of
entries read successfully (calls of `libambit_pmem20_log_read_entry` that
returned an entry); with a push consumer this is the number of `push_cb`
calls, without one `push_cb` is never called. -/
theorem libambit_log_read_returns_entries_read (env : Env H E)
    (skip_cb : Option (Trace H E → H → Int)) (push_cb progress_cb : Bool) (fuel : Nat)
    (r : Int) (trace : Trace H E)
    (h : libambit_log_read env skip_cb push_cb progress_cb fuel = Outcome.ret (r, trace))
    (hr : r ≠ -1) :
    r = ((trace.countP Event.is_read_ok : Nat) : Int) ∧
    trace.countP Event.is_push = (if push_cb then trace.countP Event.is_read_ok else 0) := by
  rcases libambit_log_read_cases env skip_cb push_cb progress_cb fuel r trace h with
    h1 | ⟨h0, hscan⟩ | ⟨total, pre, b, _, htr, hpre, hrb, fb⟩
  · exact absurd h1 hr
  · obtain ⟨_, _, _, z4, z5, _⟩ := scan_counts_zero trace hscan
    rw [z4, z5, h0]
    cases push_cb <;> simp
  · obtain ⟨_, _, _, z4, z5, _⟩ := scan_counts_zero pre hpre
    have e1 : trace.countP Event.is_read_ok = b.countP Event.is_read_ok := by
      rw [htr]; simp [List.countP_append, z4, Event.is_read_ok]
    have e2 : trace.countP Event.is_push = b.countP Event.is_push := by
      rw [htr]; simp [List.countP_append, z5, Event.is_push]
    rw [e1, e2]
    exact ⟨hrb, fb.pushes⟩

/-- Witness of `libambit_log_read_returns_entries_read`: with a consumer,
one entry failing and one read, the function returns 1. -/
theorem libambit_log_read_returns_entries_read_witness :
    (1 : Int) = ((List.countP Event.is_read_ok [Event.command .log_count [] 0 [0, 0, 2, 0],
          Event.pmem20_log_init 0,
          Event.pmem20_log_next_header 1 0, Event.pmem20_log_read_entry none,
          Event.pmem20_log_next_header 1 1, Event.pmem20_log_read_entry (some 1),
          (Event.push_cb 1 : Event Nat Nat)] : Nat) : Int) ∧
    List.countP Event.is_push [Event.command .log_count [] 0 [0, 0, 2, 0],
          Event.pmem20_log_init 0,
          Event.pmem20_log_next_header 1 0, Event.pmem20_log_read_entry none,
          Event.pmem20_log_next_header 1 1, Event.pmem20_log_read_entry (some 1),
          (Event.push_cb 1 : Event Nat Nat)]
      = (if true then List.countP Event.is_read_ok [Event.command .log_count [] 0 [0, 0, 2, 0],
          Event.pmem20_log_init 0,
          Event.pmem20_log_next_header 1 0, Event.pmem20_log_read_entry none,
          Event.pmem20_log_next_header 1 1, Event.pmem20_log_read_entry (some 1),
          (Event.push_cb 1 : Event Nat Nat)] else 0) :=
  libambit_log_read_returns_entries_read (sample_device 0 0) none true false 3 1 _
    (by decide) (by decide)

end LogReadClaims


/-! ## Enumeration, device information and display lock: the claims -/

section Identification

variable {H E : Type}

/-- C11 (defect in the code): both candidates of the sample host are
identified, yet `libambit_enumerate` returns a sequence of one descriptor,
the first: `tmp->next = devices` links the later descriptor in front of the
list but `devices` is not moved to it. -/
theorem libambit_enumerate_keeps_first_only :
    ambit_device_info_new sample_host (sample_candidate "/dev/hidraw0")
      = Outcome.ret (some ⟨"Suunto Ambit", "Bluebird", "1234", 0x1493, 0x0010,
          ⟨2, 1, 0, 0⟩, ⟨1, 0, 0, 0⟩, 0, false, 0x0200⟩) ∧
    ambit_device_info_new sample_host (sample_candidate "/dev/hidraw1")
      = Outcome.ret (some ⟨"Suunto Ambit", "", "", 0x1493, 0x0010,
          ⟨0, 0, 0, 0⟩, ⟨0, 0, 0, 0⟩, 13, false, 0⟩) ∧
    libambit_enumerate sample_host
      = Outcome.ret [⟨"Suunto Ambit", "Bluebird", "1234", 0x1493, 0x0010,
          ⟨2, 1, 0, 0⟩, ⟨1, 0, 0, 0⟩, 0, false, 0x0200⟩] := by
  decide

/-- While the loop of `libambit_enumerate` runs, `devices` is `NULL` or
points at a descriptor whose `next` is `NULL`. -/
theorem libambit_enumerate_loop_single (host : Host H E) :
    ∀ (scan : List (Option udev_device)) (cells : List enumeration_cell) (devices : Option Nat)
      (cells' : List enumeration_cell) (devices' : Option Nat),
      (∀ p, devices = some p → ∃ c, cells.get? p = some c ∧ c.next = none) →
      libambit_enumerate_loop host scan cells devices = Outcome.ret (cells', devices') →
      ∀ p, devices' = some p → ∃ c, cells'.get? p = some c ∧ c.next = none := by
  intro scan
  induction scan with
  | nil =>
    intro cells devices cells' devices' hinv h
    simp only [libambit_enumerate_loop] at h
    cases h
    exact hinv
  | cons dev rest ih =>
    intro cells devices cells' devices' hinv h
    simp only [libambit_enumerate_loop] at h
    split at h
    · rename_i tmp _
      split at h
      · rename_i p
        refine ih _ _ _ _ ?_ h
        intro q hq
        cases hq
        obtain ⟨c, hc, hn⟩ := hinv p rfl
        have hlt : p < cells.length := by
          rcases List.get?_eq_some.mp hc with ⟨hp, _⟩
          exact hp
        refine ⟨c, ?_, hn⟩
        rw [List.get?_eq_getElem?] at hc ⊢
        rw [List.getElem?_append_left hlt]
        exact hc
      · refine ih _ _ _ _ ?_ h
        intro q hq
        cases hq
        refine ⟨⟨tmp, none⟩, ?_, rfl⟩
        rw [List.get?_eq_getElem?]
        exact List.getElem?_concat_length _ _
    · exact ih _ _ _ _ hinv h
    · cases h
    · cases h

/-- Whatever the host, the sequence `libambit_enumerate` returns has at most
one descriptor. -/
theorem libambit_enumerate_length_le_one (host : Host H E) (l : List ambit_device_info_t)
    (h : libambit_enumerate host = Outcome.ret l) : l.length ≤ 1 := by
  simp only [libambit_enumerate] at h
  split at h
  · cases h; simp
  · split at h
    · cases h; simp
    · split at h
      · rename_i cells devices hloop
        cases h
        have hinv := libambit_enumerate_loop_single host host.scan [] none cells devices
          (by intro p hp; cases hp) hloop
        cases devices with
        | none => cases cells <;> simp [enumeration_from]
        | some p =>
          obtain ⟨c, hc, hn⟩ := hinv p rfl
          have hlt : p < cells.length := by
            rcases List.get?_eq_some.mp hc with ⟨hp, _⟩
            exact hp
          obtain ⟨n, hn'⟩ : ∃ n, cells.length = n + 1 := ⟨cells.length - 1, by omega⟩
          rw [hn']
          simp only [enumeration_from, hc, hn]
          cases n <;> simp [enumeration_from]
      · cases h
      · cases h

/-- C12 (defect in the code): the command succeeds with a reply of four
bytes; `device_info_get` does not return -1 but copies 40 bytes from the
reply, reading past its end. -/
theorem device_info_get_short_reply :
    device_info_get (sample_info_device [1, 2, 3, 4] 0 0) [] (some ambit_2_1_0)
      = Outcome.out_of_bounds := by
  decide

/-- Whenever the command succeeds with fewer than 40 bytes, `device_info_get`
reads past the end of the reply; it never returns -1 then. -/
theorem device_info_get_of_short (env : Env H E) (t : Trace H E) (d : ambit_device_info_t)
    (hst : (env.libambit_protocol_command t .device_info komposti_version).1 = 0)
    (hlen : (env.libambit_protocol_command t .device_info komposti_version).2.length < 40) :
    device_info_get env t (some d) = Outcome.out_of_bounds := by
  have h4 : memcpy_from (env.libambit_protocol_command t .device_info komposti_version).2 36 4
      = none := by
    simp only [memcpy_from]
    rw [if_neg (by omega)]
  simp only [device_info_get, hst, if_true, h4]
  split
  · rename_i h; cases h
  · rfl

/-- With a reply of at least 40 bytes `device_info_get` returns 0 and
stores model, serial and the two versions from the fixed layout. -/
theorem device_info_get_of_long (env : Env H E) (t : Trace H E) (d : ambit_device_info_t)
    (hst : (env.libambit_protocol_command t .device_info komposti_version).1 = 0)
    (hlen : 40 ≤ (env.libambit_protocol_command t .device_info komposti_version).2.length) :
    device_info_get env t (some d)
      = Outcome.ret (0,
          some { d with
            model := c_string
              ((env.libambit_protocol_command t .device_info komposti_version).2.take 16),
            serial := c_string
              (((env.libambit_protocol_command t .device_info komposti_version).2.drop 16).take 16),
            fw_version := version_of_bytes
              (((env.libambit_protocol_command t .device_info komposti_version).2.drop 32).take 4),
            hw_version := version_of_bytes
              (((env.libambit_protocol_command t .device_info komposti_version).2.drop 36).take 4) },
          [logged env t .device_info komposti_version]) := by
  simp only [device_info_get, hst, if_true, memcpy_from]
  rw [if_pos (by omega), if_pos (by omega), if_pos (by omega), if_pos (by omega)]
  simp

/-- C13: `lock_log` sends the "set" command only after a check that
succeeded and observed the other state (0 when locking, 1 when unlocking),
then exactly once, after the check; in every other case the check is the
only command.  When the check fails its status is returned. -/
theorem lock_log_sets_only_on_difference (env : Env H E) (t : Trace H E) (lock : Bool) :
    ((env.libambit_protocol_command t .lock_check []).1 ≠ 0 →
      lock_log env t lock
        = Outcome.ret ((env.libambit_protocol_command t .lock_check []).1,
            [logged env t .lock_check []])) ∧
    (∀ current_lock, (env.libambit_protocol_command t .lock_check []).1 = 0 →
      le32toh_at (env.libambit_protocol_command t .lock_check []).2 = some current_lock →
      ((lock = true ∧ current_lock = 0) ∨ (lock = false ∧ current_lock = 1)) →
      lock_log env t lock
        = Outcome.ret ((env.libambit_protocol_command (t ++ [logged env t .lock_check []])
              .lock_set [if lock then 1 else 0, 0, 0, 0]).1,
            [logged env t .lock_check [],
             logged env (t ++ [logged env t .lock_check []]) .lock_set
               [if lock then 1 else 0, 0, 0, 0]])) ∧
    (∀ current_lock, (env.libambit_protocol_command t .lock_check []).1 = 0 →
      le32toh_at (env.libambit_protocol_command t .lock_check []).2 = some current_lock →
      ¬ ((lock = true ∧ current_lock = 0) ∨ (lock = false ∧ current_lock = 1)) →
      lock_log env t lock = Outcome.ret (0, [logged env t .lock_check []])) := by
  refine ⟨?_, ?_, ?_⟩
  · intro hst
    cases lock <;> simp [lock_log, hst]
  · intro v hst hv hdiff
    rcases hdiff with ⟨hl, hv0⟩ | ⟨hl, hv1⟩
    · subst hl; subst hv0
      simp [lock_log, hst, hv]
    · subst hl; subst hv1
      simp [lock_log, hst, hv]
  · intro v hst hv hsame
    cases lock
    · have hv1 : v ≠ 1 := fun h => hsame (Or.inr ⟨rfl, h⟩)
      simp [lock_log, hst, hv, hv1]
    · have hv0 : v ≠ 0 := fun h => hsame (Or.inl ⟨rfl, h⟩)
      simp [lock_log, hst, hv, hv0]

/-- Witness of `lock_log_sets_only_on_difference`: locking a device whose
display is not locked sends the check and then one "set". -/
theorem lock_log_sets_only_on_difference_witness :
    lock_log (sample_info_device [] 0 0) [] true
      = Outcome.ret (0, [Event.command .lock_check [] 0 [0, 0, 0, 0],
          Event.command .lock_set [1, 0, 0, 0] 0 []]) :=
  (lock_log_sets_only_on_difference (sample_info_device [] 0 0) [] true).2.1 0
    (by decide) (by decide) (by decide)

end Identification

/-! ## Log synchronisation: empty log and progress reports -/

section LogReadProgress

variable {H E : Type}

/-- C14, as stated, fails: the count query succeeds and reports 0, there is
no predicate, but `libambit_pmem20_log_init` fails, and the function
returns -1, not 0. -/
theorem libambit_log_read_empty_init_fails :
    libambit_log_read (sample_info_device [] 0 (-1)) none true true 1
      = Outcome.ret (-1, [Event.command .log_count [] 0 [0, 0, 0, 0],
          Event.pmem20_log_init (-1)]) := by
  decide

/-- C14, amended: without predicate, when the count query succeeds and
reports 0, the run is the count query followed by one call of
`libambit_pmem20_log_init`, nothing else: no other command, no call of
`next_header`, `read_entry`, `push_cb` or `progress_cb`.  The function
returns 0 when `libambit_pmem20_log_init` returned 0 and -1 otherwise. -/
theorem libambit_log_read_empty (env : Env H E) (push_cb progress_cb : Bool) (fuel : Nat)
    (hst : (env.libambit_protocol_command [] .log_count []).1 = 0)
    (hcount : le16toh_at (env.libambit_protocol_command [] .log_count []).2 2 = some 0)
    (hfuel : 0 < fuel) :
    libambit_log_read env none push_cb progress_cb fuel
      = Outcome.ret (
          (if env.libambit_pmem20_log_init [logged env [] .log_count []] = 0 then 0 else -1),
          [logged env [] .log_count [],
           Event.pmem20_log_init (env.libambit_pmem20_log_init [logged env [] .log_count []])]) := by
  obtain ⟨f, rfl⟩ : ∃ f, fuel = f + 1 := ⟨fuel - 1, by omega⟩
  by_cases hinit : env.libambit_pmem20_log_init [logged env [] .log_count []] = 0
  · simp [libambit_log_read, log_read_prescan, log_read_bulk_loop, hst, hcount, hinit]
  · simp [libambit_log_read, log_read_prescan, hst, hcount, hinit]

/-- Witness of `libambit_log_read_empty`: an empty device whose
`libambit_pmem20_log_init` succeeds. -/
theorem libambit_log_read_empty_witness :
    libambit_log_read (sample_info_device [] 0 0) none true true 1
      = Outcome.ret (
          (if (sample_info_device [] 0 0).libambit_pmem20_log_init
              [logged (sample_info_device [] 0 0) [] .log_count []] = 0 then 0 else -1),
          [logged (sample_info_device [] 0 0) [] .log_count [],
           Event.pmem20_log_init ((sample_info_device [] 0 0).libambit_pmem20_log_init
             [logged (sample_info_device [] 0 0) [] .log_count []])]) :=
  libambit_log_read_empty (sample_info_device [] 0 0) true true 1 (by decide) (by decide)
    (by decide)

/-- The progress reports of one round of the bulk loop: both carry the
total and the number of the entry, the first the percentage before the
entry and the second, the last action of the round, the percentage after. -/
theorem log_read_bulk_body_progress (env : Env H E) (skip_cb : Option (Trace H E → H → Int))
    (push_cb progress_cb : Bool) (total walked : Nat) (er : Int) (h : H) (t1 : Trace H E)
    (hw : walked + 1 < 2 ^ 16) :
    (∀ tot w p, Event.progress_cb tot w p ∈
        (log_read_bulk_body env skip_cb push_cb progress_cb total walked er h t1).2 →
      tot = total ∧ w = walked + 1 ∧
        (p = 100 * walked / total ∨ p = 100 * (walked + 1) / total)) ∧
    (progress_cb = true →
      (log_read_bulk_body env skip_cb push_cb progress_cb total walked er h t1).2.getLast?
        = some (Event.progress_cb total (walked + 1) (100 * (walked + 1) / total))) := by
  have hmod : (walked + 1) % 2 ^ 16 = walked + 1 := Nat.mod_eq_of_lt hw
  rcases skip_cb with _ | skip
  · simp only [log_read_bulk_body, hmod]
    generalize env.libambit_pmem20_log_read_entry _ = entry
    cases entry <;> cases push_cb <;> cases progress_cb <;>
      simp [report_progress]
    all_goals
      intro tot w p hh
      rcases hh with ⟨a1, b1, c1⟩ | ⟨a1, b1, c1⟩
      · exact ⟨a1, b1, Or.inl c1⟩
      · exact ⟨a1, b1, Or.inr c1⟩
  · simp only [log_read_bulk_body, hmod]
    generalize skip _ h = a
    generalize env.libambit_pmem20_log_read_entry _ = entry
    by_cases ha : a = 0 <;> cases entry <;> cases push_cb <;> cases progress_cb <;>
      simp [report_progress, ha]
    all_goals
      intro tot w p hh
      rcases hh with ⟨a1, b1, c1⟩ | ⟨a1, b1, c1⟩
      · exact ⟨a1, b1, Or.inl c1⟩
      · exact ⟨a1, b1, Or.inr c1⟩

/-- The progress reports of the bulk loop, entered with `walked` entries
walked: each carries the total, which is positive, an entry number above
`walked` and at most the total, and the percentage before or after that
entry; and when the walk reaches the total, the last action is the report
`(total, total, 100 * total / total)`. -/
theorem log_read_bulk_loop_progress (env : Env H E) (skip_cb : Option (Trace H E → H → Int))
    (push_cb progress_cb : Bool) (total : Nat) (htot : total < 2 ^ 16) :
    ∀ (fuel walked : Nat) (er : Int) (t : Trace H E), walked ≤ total → total - walked < fuel →
      ∃ b x, log_read_bulk_loop env skip_cb push_cb progress_cb total fuel walked er t
          = Outcome.ret (x, t ++ b) ∧
        (walked = total → b = []) ∧
        (∀ tot w p, Event.progress_cb tot w p ∈ b →
          tot = total ∧ 0 < total ∧ walked < w ∧ w ≤ total ∧
            (p = 100 * (w - 1) / total ∨ p = 100 * w / total)) ∧
        (progress_cb = true → walked < total → walked + b.countP Event.is_walk = total →
          b.getLast? = some (Event.progress_cb total total (100 * total / total))) := by
  intro fuel
  induction fuel with
  | zero => intro walked er t _ h; omega
  | succ fuel ih =>
    intro walked er t hle hfuel
    simp only [log_read_bulk_loop]
    by_cases hw : walked < total
    · by_cases hr : (env.libambit_pmem20_log_next_header t).1 = 1
      · have hmod : (walked + 1) % 2 ^ 16 = walked + 1 := Nat.mod_eq_of_lt (by omega)
        rw [if_pos hw, if_pos hr, hmod]
        obtain ⟨hp1, hp2⟩ := log_read_bulk_body_progress env skip_cb push_cb progress_cb total
          walked er (env.libambit_pmem20_log_next_header t).2
          (t ++ [Event.pmem20_log_next_header (env.libambit_pmem20_log_next_header t).1
            (env.libambit_pmem20_log_next_header t).2]) (by omega)
        obtain ⟨_, hwalk0, _⟩ := log_read_bulk_body_counts env skip_cb push_cb progress_cb total
          walked er (env.libambit_pmem20_log_next_header t).2
          (t ++ [Event.pmem20_log_next_header (env.libambit_pmem20_log_next_header t).1
            (env.libambit_pmem20_log_next_header t).2])
        generalize log_read_bulk_body env skip_cb push_cb progress_cb total walked er
          (env.libambit_pmem20_log_next_header t).2
          (t ++ [Event.pmem20_log_next_header (env.libambit_pmem20_log_next_header t).1
            (env.libambit_pmem20_log_next_header t).2]) = body at hp1 hp2 hwalk0 ⊢
        obtain ⟨b, x, hb, hnil, hb1, hb2⟩ := ih (walked + 1) body.1
          (t ++ [Event.pmem20_log_next_header (env.libambit_pmem20_log_next_header t).1
            (env.libambit_pmem20_log_next_header t).2] ++ body.2) (by omega) (by omega)
        refine ⟨[Event.pmem20_log_next_header (env.libambit_pmem20_log_next_header t).1
            (env.libambit_pmem20_log_next_header t).2] ++ body.2 ++ b, x, ?_, ?_, ?_, ?_⟩
        · rw [hb]; simp only [List.append_assoc]
        · intro h; omega
        · intro tot w p hmem
          simp only [List.mem_append, List.mem_singleton] at hmem
          rcases hmem with (hmem | hmem) | hmem
          · cases hmem
          · obtain ⟨h1, h2, h3⟩ := hp1 tot w p hmem
            subst h2
            refine ⟨h1, by omega, by omega, by omega, ?_⟩
            simpa using h3
          · obtain ⟨h1, h2, h3, h4, h5⟩ := hb1 tot w p hmem
            exact ⟨h1, h2, by omega, h4, h5⟩
        · intro hprog _ hall
          have hwalk : List.countP Event.is_walk
              ([Event.pmem20_log_next_header (env.libambit_pmem20_log_next_header t).1
                (env.libambit_pmem20_log_next_header t).2] ++ body.2 ++ b)
              = 1 + List.countP Event.is_walk b := by
            simp [List.countP_append, List.countP_cons, Event.is_walk, hr, hwalk0]
            omega
          rw [hwalk] at hall
          by_cases hend : walked + 1 = total
          · rw [hnil hend, List.append_nil]
            have hlast := hp2 hprog
            have hne : body.2 ≠ [] := by
              intro hnil2; rw [hnil2] at hlast; simp at hlast
            rw [List.getLast?_append_of_ne_nil _ hne, hlast, hend]
          · have hlast := hb2 hprog (by omega) (by omega)
            have hne : b ≠ [] := by
              intro hnil2; rw [hnil2] at hlast; simp at hlast
            rw [List.getLast?_append_of_ne_nil _ hne]
            exact hlast
      · rw [if_pos hw, if_neg hr]
        refine ⟨[Event.pmem20_log_next_header (env.libambit_pmem20_log_next_header t).1
            (env.libambit_pmem20_log_next_header t).2], er, rfl, ?_, ?_, ?_⟩
        · intro h; omega
        · intro tot w p hmem
          simp only [List.mem_singleton] at hmem
          cases hmem
        · intro _ _ hall
          simp [Event.is_walk, hr] at hall
          omega
    · rw [if_neg hw]
      refine ⟨[], er, by simp, fun _ => rfl, ?_, ?_⟩
      · intro tot w p hmem; simp at hmem
      · intro _ h; exact absurd h hw

/-- A run of `libambit_log_read` that returns either never entered the
bulk loop, and then holds only commands, calls of the predicate and at most
a failed `log_init`, or returns what the bulk loop returns after a header
scan `pre` and a successful `log_init`. -/
theorem libambit_log_read_bulk_part (env : Env H E) (skip_cb : Option (Trace H E → H → Int))
    (push_cb progress_cb : Bool) (fuel : Nat) (r : Int) (trace : Trace H E)
    (h : libambit_log_read env skip_cb push_cb progress_cb fuel = Outcome.ret (r, trace)) :
    (∀ e ∈ trace, e.is_command = true ∨ e.is_skip = true ∨ e.is_log_init = true) ∨
    (∃ total pre,
      le16toh_at (env.libambit_protocol_command [] .log_count []).2 2 = some total ∧
      (∀ e ∈ pre, e.is_command = true ∨ e.is_skip = true) ∧
      log_read_bulk_loop env skip_cb push_cb progress_cb total fuel 0 0
        (pre ++ [Event.pmem20_log_init 0]) = Outcome.ret (r, trace)) := by
  simp only [libambit_log_read] at h
  split at h
  · cases h
    left; intro e he
    simp only [List.mem_singleton] at he
    subst he; simp [logged, Event.is_command]
  · split at h
    · cases h
    · rename_i total htotal
      have hscan : ∀ (x : LoopExit) (t : Trace H E),
          log_read_prescan env skip_cb fuel [logged env [] .log_count []] = Outcome.ret (x, t) →
          ∀ e ∈ t, e.is_command = true ∨ e.is_skip = true := by
        intro x t hpre e he
        obtain ⟨p, hp, hev, _⟩ := log_read_prescan_events env skip_cb fuel _ _ _ hpre
        rw [hp] at he
        rcases List.mem_append.mp he with he | he
        · simp only [List.mem_singleton] at he
          subst he; simp [logged, Event.is_command]
        · exact hev e he
      split at h
      · cases h
      · cases h
      · rename_i v t hpre
        cases h
        left; intro e he
        rcases hscan _ _ hpre e he with h1 | h1
        · exact Or.inl h1
        · exact Or.inr (Or.inl h1)
      · rename_i t hpre
        cases h
        left; intro e he
        rcases hscan _ _ hpre e he with h1 | h1
        · exact Or.inl h1
        · exact Or.inr (Or.inl h1)
      · rename_i t hpre
        split at h
        · cases h
          left; intro e he
          rcases List.mem_append.mp he with he | he
          · rcases hscan _ _ hpre e he with h1 | h1
            · exact Or.inl h1
            · exact Or.inr (Or.inl h1)
          · simp only [List.mem_singleton] at he
            subst he; simp [Event.is_log_init]
        · rename_i hinit
          have hinit0 : env.libambit_pmem20_log_init t = 0 := not_not.mp hinit
          rw [hinit0] at h
          exact Or.inr ⟨total, t, htotal, hscan _ _ hpre, h⟩

/-- C15: in a run of `libambit_log_read` that returns, with `total` the
log count read from the device, every call of `progress_cb` has a total
that is `total` and positive (so `100 * walked / total` does not divide by
zero), an entry number from 1 to the total, and a percentage of at most
100, namely the one before or after that entry; and when there is an
observer and all `total > 0` entries are walked, the last action of the run
is the report `(total, total, 100)`. -/
theorem libambit_log_read_progress_in_range (env : Env H E)
    (skip_cb : Option (Trace H E → H → Int)) (push_cb progress_cb : Bool) (fuel total : Nat)
    (r : Int) (trace : Trace H E)
    (h : libambit_log_read env skip_cb push_cb progress_cb fuel = Outcome.ret (r, trace))
    (hcount : le16toh_at (env.libambit_protocol_command [] .log_count []).2 2 = some total) :
    (∀ tot w p, Event.progress_cb tot w p ∈ trace →
      tot = total ∧ 0 < tot ∧ 1 ≤ w ∧ w ≤ tot ∧ p ≤ 100 ∧
        (p = 100 * (w - 1) / tot ∨ p = 100 * w / tot)) ∧
    (progress_cb = true → 0 < total → trace.countP Event.is_walk = total →
      trace.getLast? = some (Event.progress_cb total total 100)) := by
  rcases libambit_log_read_bulk_part env skip_cb push_cb progress_cb fuel r trace h with
    hscan | ⟨total', pre, htotal, hpre, hloop⟩
  · constructor
    · intro tot w p hmem
      rcases hscan _ hmem with h1 | h1 | h1 <;>
        simp [Event.is_command, Event.is_skip, Event.is_log_init] at h1
    · intro _ hpos hall
      have hzero : trace.countP Event.is_walk = 0 := by
        rw [List.countP_eq_zero]
        intro e he
        rcases hscan e he with h1 | h1 | h1 <;> cases e <;>
          simp [Event.is_command, Event.is_skip, Event.is_log_init, Event.is_walk] at h1 ⊢
      omega
  · rw [hcount] at htotal
    cases htotal
    have htot : total < 2 ^ 16 := le16toh_at_lt _ _ _ hcount
    have h1 := log_read_bulk_loop_mono env skip_cb push_cb progress_cb total fuel 0 0 _ _ hloop
      (total + 1)
    obtain ⟨b, x, hb, _, hb1, hb2⟩ := log_read_bulk_loop_progress env skip_cb push_cb progress_cb
      total htot (fuel + (total + 1)) 0 0 (pre ++ [Event.pmem20_log_init 0]) (by omega) (by omega)
    rw [hb] at h1
    cases h1
    have hprewalk : pre.countP Event.is_walk = 0 := by
      rw [List.countP_eq_zero]
      intro e he
      rcases hpre e he with h1 | h1 <;> cases e <;>
        simp [Event.is_command, Event.is_skip, Event.is_walk] at h1 ⊢
    constructor
    · intro tot w p hmem
      simp only [List.mem_append, List.mem_singleton] at hmem
      rcases hmem with (hmem | hmem) | hmem
      · rcases hpre _ hmem with h1 | h1 <;> simp [Event.is_command, Event.is_skip] at h1
      · cases hmem
      · obtain ⟨e1, e2, e3, e4, e5⟩ := hb1 tot w p hmem
        subst e1
        refine ⟨rfl, e2, by omega, e4, ?_, e5⟩
        have hle : 100 * w / tot ≤ 100 :=
          Nat.div_le_of_le_mul (by rw [Nat.mul_comm tot 100]; exact Nat.mul_le_mul_left 100 e4)
        rcases e5 with e5 | e5
        · rw [e5]
          exact Nat.le_trans (Nat.div_le_div_right (Nat.mul_le_mul_left 100 (Nat.sub_le w 1))) hle
        · rw [e5]; exact hle
    · intro hprog hpos hall
      have hwalks : b.countP Event.is_walk = total := by
        rw [← hall]
        simp [List.countP_append, hprewalk, Event.is_walk]
      have hlast := hb2 hprog hpos (by omega)
      have hne : b ≠ [] := by
        intro hnil; rw [hnil] at hlast; simp at hlast
      rw [List.getLast?_append_of_ne_nil _ hne, hlast, Nat.mul_div_cancel _ hpos]

/-- Witness of `libambit_log_read_progress_in_range`: two entries walked
with an observer; the reports are (2, 1, 0), (2, 1, 50), (2, 2, 50) and
(2, 2, 100). -/
theorem libambit_log_read_progress_in_range_witness :
    (∀ tot w p, Event.progress_cb tot w p ∈
        [Event.command .log_count [] 0 [0, 0, 2, 0], Event.pmem20_log_init 0,
          Event.pmem20_log_next_header 1 0, Event.progress_cb 2 1 0,
          Event.pmem20_log_read_entry none, Event.progress_cb 2 1 50,
          Event.pmem20_log_next_header 1 1, Event.progress_cb 2 2 50,
          Event.pmem20_log_read_entry (some 1), Event.push_cb 1,
          (Event.progress_cb 2 2 100 : Event Nat Nat)] →
      tot = 2 ∧ 0 < tot ∧ 1 ≤ w ∧ w ≤ tot ∧ p ≤ 100 ∧
        (p = 100 * (w - 1) / tot ∨ p = 100 * w / tot)) ∧
    (true = true → 0 < 2 →
      List.countP Event.is_walk
        [Event.command .log_count [] 0 [0, 0, 2, 0], Event.pmem20_log_init 0,
          Event.pmem20_log_next_header 1 0, Event.progress_cb 2 1 0,
          Event.pmem20_log_read_entry none, Event.progress_cb 2 1 50,
          Event.pmem20_log_next_header 1 1, Event.progress_cb 2 2 50,
          Event.pmem20_log_read_entry (some 1), Event.push_cb 1,
          (Event.progress_cb 2 2 100 : Event Nat Nat)] = 2 →
      List.getLast?
        [Event.command .log_count [] 0 [0, 0, 2, 0], Event.pmem20_log_init 0,
          Event.pmem20_log_next_header 1 0, Event.progress_cb 2 1 0,
          Event.pmem20_log_read_entry none, Event.progress_cb 2 1 50,
          Event.pmem20_log_next_header 1 1, Event.progress_cb 2 2 50,
          Event.pmem20_log_read_entry (some 1), Event.push_cb 1,
          (Event.progress_cb 2 2 100 : Event Nat Nat)]
        = some (Event.progress_cb 2 2 100)) :=
  libambit_log_read_progress_in_range (sample_device 0 0) none true true 3 2 1 _
    (by decide) (by decide)

end LogReadProgress


end Libambit
